import Mathlib

/-!
Verification development for the Dispatch excerpt: the message-template
renderer (dispatch/messaging/strings.py, render_message_template) and the
participant CRUD service (dispatch/participant/service.py).

The renderer is embedded twice:
* a pure, value-level model (`renderBlock`, `render_message_template`) used
  for the functional claims, and
* a heap model (`render_message_template_H`) in which blocks and buttons are
  mutable cells addressed by natural numbers, used for the claim that the
  renderer deep-copies its input and never mutates the caller's blocks.

The template engine (Jinja) is an external collaborator; it is abstracted as
a function `tmpl : String → Ctx → String` taking the template source and the
keyword-argument context.  Python truthiness of `d.get(key)` guards is
modelled by `truthy` (a present-but-empty string is falsy) and `truthyList`
(a present-but-empty list or mapping is falsy).

The participant service runs against an explicit database value `Db`.  The
collaborator modules (incident lookup, individual-contact lookup, contact
plugin, service lookup, participant-role creation) are not part of the shown
sources; they are modelled from the spec's external-interface contracts.
Fallible operations return `Option` / `Except`: a `none` / `.error` result
stands for the Python call raising an exception.
-/

set_option maxRecDepth 2048

namespace Dispatch

/-- A keyword-argument context: an association list from names to values. -/
abbrev Ctx := List (String × String)

/-- First-match association-list lookup, the model of a Python dict lookup. -/
def lookupS (m : List (String × String)) (k : String) : Option String :=
  match m with
  | [] => none
  | (k', v) :: rest => if k' = k then some v else lookupS rest k

/-- Python dict `.get(key, default)`. -/
def dict_get (m : List (String × String)) (k : String) (d : String) : String :=
  (lookupS m k).getD d

/-- Python slicing `s[:n]` on a string (by characters). -/
def strTake (s : String) (n : Nat) : String := String.mk (s.data.take n)

/-- Truthiness of `d.get(key)` for an optional string field: the field is
truthy when present and not the empty string. -/
def truthy : Option String → Option String
  | some s => if s = "" then none else some s
  | none => none

/-- Truthiness of `d.get(key)` for an optional list/mapping field: truthy
when present and nonempty. -/
def truthyList {α : Type} : Option (List α) → Option (List α)
  | some l => if l.isEmpty then none else some l
  | none => none

/-- A button record inside a block's `buttons` array. -/
structure Button where
  button_text : String
  button_value : String
  button_action : Option String := none
  button_url : Option String := none
deriving DecidableEq, Repr, Inhabited

/-- A message-template block: a dict with the optional fields that
`render_message_template` inspects. -/
structure Block where
  header : Option String := none
  title : Option String := none
  title_link : Option String := none
  text : Option String := none
  buttons : Option (List Button) := none
  status_mapping : Option (List (String × String)) := none
  datetime : Option String := none
  context : Option String := none
deriving DecidableEq, Repr, Inhabited

/-- Rendering of one button: `button_text` and `button_value` are rendered
unconditionally, `button_action` and `button_url` only when truthy. -/
def renderButton (tmpl : String → Ctx → String) (ctx : Ctx) (b : Button) : Button :=
  let b1 := { b with button_text := tmpl b.button_text ctx }
  let b2 := { b1 with button_value := tmpl b1.button_value ctx }
  let b3 := match truthy b2.button_action with
    | some s => { b2 with button_action := some (tmpl s ctx) }
    | none => b2
  match truthy b3.button_url with
  | some s => { b3 with button_url := some (tmpl s ctx) }
  | none => b3

/-- The `header` and `title` rendering steps of the per-block loop body. -/
def renderHead (tmpl : String → Ctx → String) (ctx : Ctx) (d : Block) : Block :=
  let d1 := match truthy d.header with
    | some s => { d with header := some (tmpl s ctx) }
    | none => d
  match truthy d1.title with
  | some s => { d1 with title := some (tmpl s ctx) }
  | none => d1

/-- The `title_link` step: render the link, then skip the block (result
`none`) when the rendered link is the literal string "None" or is empty. -/
def linkStage (tmpl : String → Ctx → String) (ctx : Ctx) (d : Block) : Option Block :=
  match truthy d.title_link with
  | some s =>
    let r := tmpl s ctx
    let d1 := { d with title_link := some r }
    if r = "None" then none
    else if r = "" then none
    else some d1
  | none => some d

/-- The `datetime` and `context` rendering steps at the end of the loop body. -/
def renderTail (tmpl : String → Ctx → String) (ctx : Ctx) (d : Block) : Block :=
  let d1 := match truthy d.datetime with
    | some s => { d with datetime := some (tmpl s ctx) }
    | none => d
  match truthy d1.context with
  | some s => { d1 with context := some (tmpl s ctx) }
  | none => d1

/-- The steps of the loop body after the `title_link` skip checks: text
rendering and 2500-character truncation, button rendering, the
`status_mapping` text replacement (whose failed key lookups raise, modelled
as `.error`), and the tail fields. -/
def renderBlockRest (tmpl : String → Ctx → String) (ctx : Ctx) (d : Block) :
    Except Unit Block :=
  let d1 := match truthy d.text with
    | some s =>
      let t := tmpl s ctx
      let t' := if t.length ≤ 2500 then t else strTake t 2500
      { d with text := some t' }
    | none => d
  let d2 := match truthyList d1.buttons with
    | some bs => { d1 with buttons := some (bs.map (renderButton tmpl ctx)) }
    | none => d1
  match truthyList d2.status_mapping with
  | some m =>
    match lookupS ctx "status" with
    | none => .error ()
    | some st =>
      match lookupS m st with
      | none => .error ()
      | some v => .ok (renderTail tmpl ctx { d2 with text := some v })
  | none => .ok (renderTail tmpl ctx d2)

/-- One iteration of the loop body of `render_message_template`: `.ok none`
means the block was skipped by the `title_link` checks, `.ok (some b)` that
`b` is appended to the output, `.error` that a lookup raised. -/
def renderBlock (tmpl : String → Ctx → String) (ctx : Ctx) (d : Block) :
    Except Unit (Option Block) :=
  match linkStage tmpl ctx (renderHead tmpl ctx d) with
  | none => .ok none
  | some d2 => (renderBlockRest tmpl ctx d2).map some

/-- `render_message_template`: renders each block in order against the
context, dropping skipped blocks; an exception in any block aborts the whole
call. -/
def render_message_template (tmpl : String → Ctx → String) (ctx : Ctx) :
    List Block → Except Unit (List Block)
  | [] => .ok []
  | d :: rest =>
    match renderBlock tmpl ctx d with
    | .error e => .error e
    | .ok r =>
      match render_message_template tmpl ctx rest with
      | .error e => .error e
      | .ok tail =>
        match r with
        | some b => .ok (b :: tail)
        | none => .ok tail

/-- A block is dropped exactly when its truthy `title_link` renders to the
literal string "None" or to the empty string. -/
def droppedBlock (tmpl : String → Ctx → String) (ctx : Ctx) (d : Block) : Bool :=
  match truthy d.title_link with
  | some s => tmpl s ctx = "None" || tmpl s ctx = ""
  | none => false

/-- The contribution of one input block to the output list of a successful
render: `some` of its rendered form when kept, `none` when dropped. -/
def keptRender (tmpl : String → Ctx → String) (ctx : Ctx) (d : Block) : Option Block :=
  match renderBlock tmpl ctx d with
  | .ok (some b) => some b
  | _ => none

/-- The text-truncation step in isolation (used to describe the action of a
render with an identity template engine). -/
def textTrunc (d : Block) : Block :=
  match truthy d.text with
  | some s => { d with text := some (if s.length ≤ 2500 then s else strTake s 2500) }
  | none => d

/-! ### Heap model of the renderer

Blocks and buttons are mutable cells addressed by their index in a store.
A block cell holds the addresses of its button cells, so that the depth of
`copy.deepcopy` is observable: the copy allocates fresh block cells *and*
fresh button cells. -/

/-- A block cell: like `Block` but with `buttons` holding button-cell
addresses. -/
structure BlockCell where
  header : Option String := none
  title : Option String := none
  title_link : Option String := none
  text : Option String := none
  buttons : Option (List Nat) := none
  status_mapping : Option (List (String × String)) := none
  datetime : Option String := none
  context : Option String := none
deriving DecidableEq, Repr, Inhabited

/-- The store of block cells and button cells. -/
structure Heap where
  blks : List BlockCell
  btns : List Button
deriving DecidableEq, Repr, Inhabited

def Heap.readBlk (h : Heap) (a : Nat) : BlockCell := (h.blks[a]?).getD default

def Heap.writeBlk (h : Heap) (a : Nat) (v : BlockCell) : Heap :=
  { h with blks := h.blks.set a v }

def Heap.readBtn (h : Heap) (a : Nat) : Button := (h.btns[a]?).getD default

def Heap.writeBtn (h : Heap) (a : Nat) (v : Button) : Heap :=
  { h with btns := h.btns.set a v }

def Heap.allocBlk (h : Heap) (v : BlockCell) : Heap × Nat :=
  ({ h with blks := h.blks ++ [v] }, h.blks.length)

def Heap.allocBtn (h : Heap) (v : Button) : Heap × Nat :=
  ({ h with btns := h.btns ++ [v] }, h.btns.length)

/-- Deep copy of a list of button cells: fresh cells with the same values. -/
def copyButtonList (h : Heap) : List Nat → Heap × List Nat
  | [] => (h, [])
  | b :: bs =>
    let p := h.allocBtn (h.readBtn b)
    let q := copyButtonList p.1 bs
    (q.1, p.2 :: q.2)

/-- Deep copy of one block cell, copying its button cells first. -/
def copyBlock (h : Heap) (a : Nat) : Heap × Nat :=
  let v := h.readBlk a
  match v.buttons with
  | some bs =>
    let p := copyButtonList h bs
    p.1.allocBlk { v with buttons := some p.2 }
  | none => h.allocBlk v

/-- `copy.deepcopy(message_template)`: fresh cells for every block and every
button. -/
def deepcopy (h : Heap) : List Nat → Heap × List Nat
  | [] => (h, [])
  | a :: rest =>
    let p := copyBlock h a
    let q := deepcopy p.1 rest
    (q.1, p.2 :: q.2)

/-- In-place rendering of a list of button cells. -/
def renderButtonsH (tmpl : String → Ctx → String) (ctx : Ctx) (h : Heap) :
    List Nat → Heap
  | [] => h
  | b :: bs =>
    renderButtonsH tmpl ctx (h.writeBtn b (renderButton tmpl ctx (h.readBtn b))) bs

/-- The `datetime` and `context` steps on the heap. -/
def renderTailH (tmpl : String → Ctx → String) (ctx : Ctx) (h : Heap) (a : Nat) :
    Heap × Except Unit Bool :=
  let h1 := match truthy (h.readBlk a).datetime with
    | some s => h.writeBlk a { h.readBlk a with datetime := some (tmpl s ctx) }
    | none => h
  let h2 := match truthy (h1.readBlk a).context with
    | some s => h1.writeBlk a { h1.readBlk a with context := some (tmpl s ctx) }
    | none => h1
  (h2, .ok true)

/-- The `text` rendering-and-truncation step on the heap. -/
def textStageH (tmpl : String → Ctx → String) (ctx : Ctx) (h : Heap) (a : Nat) : Heap :=
  match truthy (h.readBlk a).text with
  | some s =>
    let t := tmpl s ctx
    let t' := if t.length ≤ 2500 then t else strTake t 2500
    h.writeBlk a { h.readBlk a with text := some t' }
  | none => h

/-- The `buttons` in-place rendering step on the heap. -/
def buttonsStageH (tmpl : String → Ctx → String) (ctx : Ctx) (h : Heap) (a : Nat) : Heap :=
  match truthyList (h.readBlk a).buttons with
  | some bs => renderButtonsH tmpl ctx h bs
  | none => h

/-- The `status_mapping` replacement step (with its fallible lookups) and
the tail fields, on the heap. -/
def statusStageH (tmpl : String → Ctx → String) (ctx : Ctx) (h : Heap) (a : Nat) :
    Heap × Except Unit Bool :=
  match truthyList (h.readBlk a).status_mapping with
  | some m =>
    match lookupS ctx "status" with
    | none => (h, .error ())
    | some st =>
      match lookupS m st with
      | none => (h, .error ())
      | some v =>
        renderTailH tmpl ctx (h.writeBlk a { h.readBlk a with text := some v }) a
  | none => renderTailH tmpl ctx h a

/-- The steps after the `title_link` checks, on the heap. -/
def renderBlockRestH (tmpl : String → Ctx → String) (ctx : Ctx) (h : Heap) (a : Nat) :
    Heap × Except Unit Bool :=
  statusStageH tmpl ctx (buttonsStageH tmpl ctx (textStageH tmpl ctx h a) a) a

/-- The `header` rendering step on the heap. -/
def headStageH (tmpl : String → Ctx → String) (ctx : Ctx) (h : Heap) (a : Nat) : Heap :=
  match truthy (h.readBlk a).header with
  | some s => h.writeBlk a { h.readBlk a with header := some (tmpl s ctx) }
  | none => h

/-- The `title` rendering step on the heap. -/
def titleStageH (tmpl : String → Ctx → String) (ctx : Ctx) (h : Heap) (a : Nat) : Heap :=
  match truthy (h.readBlk a).title with
  | some s => h.writeBlk a { h.readBlk a with title := some (tmpl s ctx) }
  | none => h

/-- One loop iteration on the heap; the boolean tells whether the block is
appended to the output. -/
def renderBlockH (tmpl : String → Ctx → String) (ctx : Ctx) (h : Heap) (a : Nat) :
    Heap × Except Unit Bool :=
  let h2 := titleStageH tmpl ctx (headStageH tmpl ctx h a) a
  match truthy (h2.readBlk a).title_link with
  | some s =>
    let r := tmpl s ctx
    let h3 := h2.writeBlk a { h2.readBlk a with title_link := some r }
    if r = "None" then (h3, .ok false)
    else if r = "" then (h3, .ok false)
    else renderBlockRestH tmpl ctx h3 a
  | none => renderBlockRestH tmpl ctx h2 a

/-- The rendering loop over the copied block addresses. -/
def renderLoopH (tmpl : String → Ctx → String) (ctx : Ctx) (h : Heap) :
    List Nat → Heap × Except Unit (List Nat)
  | [] => (h, .ok [])
  | a :: rest =>
    match renderBlockH tmpl ctx h a with
    | (h1, .error e) => (h1, .error e)
    | (h1, .ok keep) =>
      match renderLoopH tmpl ctx h1 rest with
      | (h2, .error e) => (h2, .error e)
      | (h2, .ok out) => (h2, .ok (if keep then a :: out else out))

/-- `render_message_template` on the heap: deep-copy the input block cells,
then render the copies in place, returning the output addresses. -/
def render_message_template_H (tmpl : String → Ctx → String) (ctx : Ctx)
    (h : Heap) (addrs : List Nat) : Heap × Except Unit (List Nat) :=
  let p := deepcopy h addrs
  renderLoopH tmpl ctx p.1 p.2

/-- Heaps agree on all button cells below `nB` and all block cells below `nK`. -/
def AgreeBelow (h0 h1 : Heap) (nB nK : Nat) : Prop :=
  (∀ i, i < nK → h1.blks[i]? = h0.blks[i]?) ∧
  (∀ j, j < nB → h1.btns[j]? = h0.btns[j]?)

/-- All button addresses held by a block cell are at least `n`. -/
def BtnsBound (c : BlockCell) (n : Nat) : Prop :=
  ∀ bs, c.buttons = some bs → ∀ b ∈ bs, n ≤ b

/-! ### Participant service model

`Db` is the transactional session state: the participant table plus the
collaborator tables the service consults.  Collaborator operations whose
modules are not part of the shown sources are modelled from the spec's §6
contracts. -/

/-- A participant-role record: (role name, granted, optional renounced);
a role is active while `renounced_at` is unset. -/
structure ParticipantRole where
  id : Nat
  role : String
  renounced_at : Option Nat := none
deriving DecidableEq, Repr

/-- A participant row.  `incident_id` / `individual_contact_id` /
`service_id` are nullable foreign keys; `participant_roles` is the
ordered role collection. -/
structure Participant where
  id : Nat
  incident_id : Option Nat := none
  individual_contact_id : Option Nat := none
  service_id : Option Nat := none
  team : String := ""
  department : String := ""
  location : String := ""
  participant_roles : List ParticipantRole := []
  user_conversation_id : Option String := none
deriving DecidableEq, Repr

/-- `ParticipantCreate`: the creation specification built by
`get_or_create`'s not-found branch (roles as role names, the three contact
attributes, and the optional service reference set only when `service_id`
was truthy). -/
structure ParticipantCreate where
  participant_roles : List String
  team : String
  department : String
  location : String
  service : Option Nat := none
deriving DecidableEq, Repr

/-- Modelled from the spec: `ParticipantUpdate`, the field-by-field update
specification (§4.2).  Its field list is not part of the shown sources; per
the spec's one-way service invariant (§4.4) the service association is not
among the updatable fields, so the specification carries the three contact
attributes, each optional (`skip_defaults` drops the unset ones). -/
structure ParticipantUpdate where
  team : Option String := none
  department : Option String := none
  location : Option String := none
deriving DecidableEq, Repr

/-- The session state: the participant table, the collaborator tables
(incidents as (id, project id), individual contacts as (id, email), service
ids, and the optional per-project contact plugin as a lookup function from
email to an info mapping), and the id allocators. -/
structure Db where
  participants : List Participant
  incidents : List (Nat × Nat)
  individuals : List (Nat × String)
  services : List Nat
  contactPlugin : Nat → Option (String → List (String × String))
  nextParticipantId : Nat
  nextRoleId : Nat

/-- SQLAlchemy `.one_or_none()`: `none` for no row, the row when unique,
an exception (`.error`) when several rows match. -/
def one_or_none {α : Type} : List α → Except Unit (Option α)
  | [] => .ok none
  | [a] => .ok (some a)
  | _ => .error ()

/-- Modelled from the spec: the incident-lookup collaborator
(`incident_service.get`), giving access to `.project.id` (§6). -/
def incident_project (db : Db) (incident_id : Nat) : Option Nat :=
  (db.incidents.find? (fun ip => ip.1 == incident_id)).map (fun ip => ip.2)

/-- Modelled from the spec: the individual-contact-lookup collaborator
(`individual_service.get`), giving access to `.email` (§6). -/
def individual_email (db : Db) (individual_id : Nat) : Option String :=
  (db.individuals.find? (fun ie => ie.1 == individual_id)).map (fun ie => ie.2)

/-- Modelled from the spec: the service-lookup collaborator
(`service_service.get`): the service when the id exists, absent otherwise
(§6, §7). -/
def service_get (db : Db) (service_id : Option Nat) : Option Nat :=
  match service_id with
  | none => none
  | some sid => if db.services.contains sid then some sid else none

/-- Modelled from the spec: the role-creation collaborator
(`participant_role_service.create`): a fresh active role record (§3, §6). -/
def participant_role_create (db : Db) (role : String) : Db × ParticipantRole :=
  ({ db with nextRoleId := db.nextRoleId + 1 },
   { id := db.nextRoleId, role := role, renounced_at := none })

/-- Creation of one role record per entry of a role list, in order. -/
def participant_role_create_all (db : Db) : List String → Db × List ParticipantRole
  | [] => (db, [])
  | r :: rs =>
    let p := participant_role_create db r
    let q := participant_role_create_all p.1 rs
    (q.1, p.2 :: q.2)

/-- `get`: a participant by id; a missing row is an absent result. -/
def get (db : Db) (participant_id : Nat) : Option Participant :=
  db.participants.find? (fun p => p.id == participant_id)

/-- The `(incident_id, individual_contact_id)` lookup filter of
`get_or_create`. -/
def filterPair (db : Db) (incident_id individual_id : Nat) : List Participant :=
  db.participants.filter
    (fun p => p.incident_id == some incident_id &&
              p.individual_contact_id == some individual_id)

/-- `create`: materialize the role list through the role collaborator, look
up the optional service, persist a new participant row.  The creation
specification carries no incident or individual reference, so the new row's
`incident_id` and `individual_contact_id` are unset (linking them is the
caller's job). -/
def create (db : Db) (participant_in : ParticipantCreate) : Db × Participant :=
  let p := participant_role_create_all db participant_in.participant_roles
  let db1 := p.1
  let service := service_get db1 participant_in.service
  let participant : Participant :=
    { id := db1.nextParticipantId,
      incident_id := none,
      individual_contact_id := none,
      service_id := service,
      team := participant_in.team,
      department := participant_in.department,
      location := participant_in.location,
      participant_roles := p.2,
      user_conversation_id := none }
  ({ db1 with
      participants := db1.participants ++ [participant],
      nextParticipantId := db1.nextParticipantId + 1 },
   participant)

/-- `get_or_create`: look up the `(incident, individual)` pair.  If found,
append freshly created role records and attach the service only when none is
set yet.  If not found, fetch the incident and the individual contact (a
missing one is an attribute error on `None`, i.e. overall failure), consult
the optional contact plugin of the incident's project, default `location` /
`team` / `department` to "Unknown", and create a new participant. -/
def get_or_create (db : Db) (incident_id individual_id : Nat)
    (service_id : Option Nat) (participant_roles : List String) :
    Option (Db × Participant) :=
  match one_or_none (filterPair db incident_id individual_id) with
  | .error _ => none
  | .ok (some participant) =>
    let p := participant_role_create_all db participant_roles
    let db1 := p.1
    let p1 := { participant with
                  participant_roles := participant.participant_roles ++ p.2 }
    let p2 := if p1.service_id = none then
        match service_get db1 service_id with
        | some sid => { p1 with service_id := some sid }
        | none => p1
      else p1
    some ({ db1 with
             participants := db1.participants.map
               (fun q => if q.id == participant.id then p2 else q) },
          p2)
  | .ok none =>
    match incident_project db incident_id, individual_email db individual_id with
    | some project_id, some email =>
      let individual_info := match db.contactPlugin project_id with
        | some plugin => plugin email
        | none => []
      let location := dict_get individual_info "location" "Unknown"
      let team := dict_get individual_info "team" "Unknown"
      let department := dict_get individual_info "department" "Unknown"
      let participant_in : ParticipantCreate :=
        { participant_roles := participant_roles,
          team := team, department := department, location := location,
          service := service_id }
      some (create db participant_in)
    | _, _ => none

/-- `update`: only the fields present in the update specification overwrite
the record; the row is replaced in the table and the call commits. -/
def update (db : Db) (participant : Participant)
    (participant_in : ParticipantUpdate) : Db × Participant :=
  let p1 := { participant with
                team := participant_in.team.getD participant.team,
                department := participant_in.department.getD participant.department,
                location := participant_in.location.getD participant.location }
  ({ db with
      participants := db.participants.map
        (fun q => if q.id == participant.id then p1 else q) },
   p1)

/-- `delete`: fetch the row by id and delete it; deleting an absent row is a
failure (`session.delete(None)` raises). -/
def delete (db : Db) (participant_id : Nat) : Option Db :=
  match db.participants.find? (fun p => p.id == participant_id) with
  | some _ =>
    some { db with
            participants := db.participants.eraseP (fun p => p.id == participant_id) }
  | none => none

/-- Well-formed session state: participant ids are pairwise distinct and
below the id allocator. -/
def WfDb (db : Db) : Prop :=
  db.participants.Pairwise (fun p q => p.id ≠ q.id) ∧
  ∀ p ∈ db.participants, p.id < db.nextParticipantId

/-- Between two states, every participant whose service association was set
keeps exactly that association (matching rows by id). -/
def ServicePreserved (db db' : Db) : Prop :=
  ∀ p ∈ db.participants, ∀ s, p.service_id = some s →
    ∀ p' ∈ db'.participants, p'.id = p.id → p'.service_id = some s

/-- Concrete status mapping for the C10 witness. -/
def mC10 : List (String × String) := [("open", "The incident is open")]

/-- C10 witness input block: text plus status mapping. -/
def blockC10w : Block := { text := some "ignored", status_mapping := some mC10 }

/-- C10 witness output block: text replaced by the mapping value. -/
def blockC10w' : Block :=
  { text := some "The incident is open", status_mapping := some mC10 }

/-- C9 counterexample input: a block with constant fields (no template
placeholders) plus a status mapping. -/
def blockC9 : Block := { text := some "hi", status_mapping := some [("open", "Open")] }

/-- The rendering of `blockC9` under status "open". -/
def blockC9' : Block := { text := some "Open", status_mapping := some [("open", "Open")] }

/-- C9 witness input: a constant block with no status mapping. -/
def blockC9w : Block := { text := some "hi", title := some "t" }

/-- A participant already linked to incident 1 and individual 2, with no
service association. -/
def pf0 : Participant :=
  { id := 0, incident_id := some 1, individual_contact_id := some 2,
    participant_roles := [{ id := 100, role := "observer" }] }

/-- Session state with one linked participant, used by the found-branch
witnesses. -/
def dbFound : Db :=
  { participants := [pf0], incidents := [], individuals := [],
    services := [5, 7], contactPlugin := fun _ => none,
    nextParticipantId := 1, nextRoleId := 0 }

/-- Session state with no participants, one incident and one individual,
no contact plugin. -/
def dbEmpty : Db :=
  { participants := [], incidents := [(1, 10)], individuals := [(2, "alice")],
    services := [], contactPlugin := fun _ => none,
    nextParticipantId := 0, nextRoleId := 0 }

/-- Session state like `dbEmpty` but with a contact plugin returning a team
and a location and no department. -/
def dbPlugin : Db :=
  { participants := [], incidents := [(1, 10)], individuals := [(2, "alice")],
    services := [], contactPlugin := fun _ => some (fun _ => [("team", "T"), ("location", "L")]),
    nextParticipantId := 0, nextRoleId := 0 }

/-- Session state with one participant of id 3, used by the delete witness. -/
def dbDel : Db :=
  { participants := [{ id := 3 }], incidents := [], individuals := [],
    services := [], contactPlugin := fun _ => none,
    nextParticipantId := 4, nextRoleId := 0 }

/-- A one-block, one-button heap used by the no-mutation witness. -/
def heapC6 : Heap :=
  { blks := [{ title := some "t", title_link := some "x", buttons := some [0] }],
    btns := [{ button_text := "b", button_value := "v" }] }

/-! ## Lemmas and theorems -/

section RendererLemmas

variable (tmpl : String → Ctx → String) (ctx : Ctx)

lemma renderHead_fields (d : Block) :
    (renderHead tmpl ctx d).title_link = d.title_link ∧
    (renderHead tmpl ctx d).text = d.text ∧
    (renderHead tmpl ctx d).buttons = d.buttons ∧
    (renderHead tmpl ctx d).status_mapping = d.status_mapping ∧
    (renderHead tmpl ctx d).datetime = d.datetime ∧
    (renderHead tmpl ctx d).context = d.context := by
  unfold renderHead
  cases truthy d.header <;> dsimp only <;>
    cases truthy d.title <;> dsimp only <;> exact ⟨rfl, rfl, rfl, rfl, rfl, rfl⟩

lemma linkStage_some_fields (d d2 : Block) (h : linkStage tmpl ctx d = some d2) :
    d2.text = d.text ∧ d2.buttons = d.buttons ∧
    d2.status_mapping = d.status_mapping ∧
    d2.datetime = d.datetime ∧ d2.context = d.context := by
  unfold linkStage at h
  cases hl : truthy d.title_link with
  | none =>
    rw [hl] at h
    cases h
    exact ⟨rfl, rfl, rfl, rfl, rfl⟩
  | some s =>
    rw [hl] at h
    dsimp only at h
    by_cases h1 : tmpl s ctx = "None"
    · simp [h1] at h
    · by_cases h2 : tmpl s ctx = ""
      · simp [h1, h2] at h
      · simp [h1, h2] at h
        cases h
        exact ⟨rfl, rfl, rfl, rfl, rfl⟩

lemma dropped_iff_linkStage_none (d : Block) :
    droppedBlock tmpl ctx d = true ↔
      linkStage tmpl ctx (renderHead tmpl ctx d) = none := by
  have hfl := (renderHead_fields tmpl ctx d).1
  unfold droppedBlock linkStage
  rw [hfl]
  cases hl : truthy d.title_link with
  | none => simp
  | some s =>
    dsimp only
    by_cases h1 : tmpl s ctx = "None"
    · simp [h1]
    · by_cases h2 : tmpl s ctx = ""
      · simp [h1, h2]
      · simp [h1, h2]

lemma renderBlock_ok_none_iff (d : Block) :
    renderBlock tmpl ctx d = .ok none ↔ droppedBlock tmpl ctx d = true := by
  unfold renderBlock
  rw [dropped_iff_linkStage_none]
  cases hl : linkStage tmpl ctx (renderHead tmpl ctx d) with
  | none => simp
  | some d2 =>
    dsimp only
    cases hr : renderBlockRest tmpl ctx d2 <;> simp [Except.map]

lemma renderBlock_not_dropped (d : Block)
    (h : droppedBlock tmpl ctx d = false) :
    renderBlock tmpl ctx d =
      (renderBlockRest tmpl ctx
        ((linkStage tmpl ctx (renderHead tmpl ctx d)).getD d)).map some := by
  unfold renderBlock
  cases hl : linkStage tmpl ctx (renderHead tmpl ctx d) with
  | none =>
    rw [← dropped_iff_linkStage_none] at hl
    rw [hl] at h
    cases h
  | some d2 => rfl

lemma truthy_eq_some (o : Option String) (s : String) (h : truthy o = some s) :
    o = some s := by
  cases o with
  | none => simp [truthy] at h
  | some t =>
    simp only [truthy] at h
    by_cases ht : t = ""
    · rw [if_pos ht] at h; cases h
    · rw [if_neg ht] at h; exact h

lemma truthyList_eq_some {α : Type} (o : Option (List α)) (l : List α)
    (h : truthyList o = some l) : o = some l := by
  cases o with
  | none => simp [truthyList] at h
  | some t =>
    simp only [truthyList] at h
    by_cases ht : t.isEmpty
    · rw [if_pos ht] at h; cases h
    · rw [if_neg ht] at h; exact h

lemma renderTail_fields (d : Block) :
    (renderTail tmpl ctx d).text = d.text ∧
    (renderTail tmpl ctx d).title_link = d.title_link ∧
    (renderTail tmpl ctx d).status_mapping = d.status_mapping ∧
    (renderTail tmpl ctx d).buttons = d.buttons := by
  unfold renderTail
  cases truthy d.datetime <;> dsimp only <;>
    cases truthy d.context <;> dsimp only <;> exact ⟨rfl, rfl, rfl, rfl⟩

lemma strTake_length (s : String) (n : Nat) :
    (strTake s n).length = min n s.length := by
  show (s.data.take n).length = min n s.data.length
  exact List.length_take n s.data

lemma renderBlockRest_text_no_sm (d : Block) (s : String) (b : Block)
    (htext : truthy d.text = some s)
    (hsm : truthyList d.status_mapping = none)
    (h : renderBlockRest tmpl ctx d = .ok b) :
    b.text = some (if (tmpl s ctx).length ≤ 2500 then tmpl s ctx
                   else strTake (tmpl s ctx) 2500) := by
  unfold renderBlockRest at h
  rw [htext] at h
  dsimp only at h
  cases hb : truthyList d.buttons <;> rw [hb] at h <;> dsimp only at h <;>
    rw [hsm] at h <;> dsimp only at h <;>
    · cases h
      exact (renderTail_fields tmpl ctx _).1

lemma renderBlockRest_sm (d : Block) (m : List (String × String))
    (hsm : truthyList d.status_mapping = some m) :
    (lookupS ctx "status" = none → renderBlockRest tmpl ctx d = .error ()) ∧
    (∀ st, lookupS ctx "status" = some st → lookupS m st = none →
        renderBlockRest tmpl ctx d = .error ()) ∧
    (∀ st v, lookupS ctx "status" = some st → lookupS m st = some v →
        ∃ b, renderBlockRest tmpl ctx d = .ok b ∧ b.text = some v) := by
  unfold renderBlockRest
  cases ht : truthy d.text <;> dsimp only <;>
    cases hb : truthyList d.buttons <;> dsimp only <;>
    rw [hsm] <;> dsimp only <;>
    refine ⟨fun hst => by rw [hst], fun st hst hv => by rw [hst]; dsimp only; rw [hv],
            fun st v hst hv => ?_⟩ <;>
    · rw [hst]
      dsimp only
      rw [hv]
      exact ⟨_, rfl, (renderTail_fields tmpl ctx _).1⟩

lemma render_error_of_mem (d : Block) (blocks : List Block) (hmem : d ∈ blocks)
    (herr : renderBlock tmpl ctx d = .error ()) :
    render_message_template tmpl ctx blocks = .error () := by
  induction blocks with
  | nil => cases hmem
  | cons x rest ih =>
    rcases List.mem_cons.mp hmem with h1 | h1
    · subst h1
      unfold render_message_template
      rw [herr]
    · unfold render_message_template
      cases hx : renderBlock tmpl ctx x with
      | error e => cases e; rfl
      | ok r =>
        rw [ih h1]

lemma render_cons_ok (d : Block) (rest : List Block) (out : List Block)
    (h : render_message_template tmpl ctx (d :: rest) = .ok out) :
    ∃ r tail, renderBlock tmpl ctx d = .ok r ∧
      render_message_template tmpl ctx rest = .ok tail ∧
      out = (match r with | some b => b :: tail | none => tail) := by
  unfold render_message_template at h
  cases hr : renderBlock tmpl ctx d with
  | error e => rw [hr] at h; cases h
  | ok r =>
    rw [hr] at h
    cases ht : render_message_template tmpl ctx rest with
    | error e => rw [ht] at h; cases h
    | ok tail =>
      rw [ht] at h
      refine ⟨r, tail, rfl, rfl, ?_⟩
      cases r with
      | some b => cases h; rfl
      | none => cases h; rfl

lemma renderBlock_ok_some_elim (d : Block) (b : Block)
    (h : renderBlock tmpl ctx d = .ok (some b)) :
    ∃ d2, linkStage tmpl ctx (renderHead tmpl ctx d) = some d2 ∧
      renderBlockRest tmpl ctx d2 = .ok b ∧
      d2.text = d.text ∧ d2.buttons = d.buttons ∧
      d2.status_mapping = d.status_mapping := by
  unfold renderBlock at h
  cases hl : linkStage tmpl ctx (renderHead tmpl ctx d) with
  | none => rw [hl] at h; cases h
  | some d2 =>
    rw [hl] at h
    dsimp only at h
    cases hr : renderBlockRest tmpl ctx d2 with
    | error e => rw [hr] at h; cases h
    | ok b' =>
      rw [hr] at h
      simp only [Except.map] at h
      cases h
      have hhead := renderHead_fields tmpl ctx d
      have hlink := linkStage_some_fields tmpl ctx _ d2 hl
      exact ⟨d2, rfl, hr,
        hlink.1.trans hhead.2.1,
        hlink.2.1.trans hhead.2.2.1,
        hlink.2.2.1.trans hhead.2.2.2.1⟩

lemma textTrunc_fields (d : Block) :
    (textTrunc d).title_link = d.title_link ∧
    (textTrunc d).status_mapping = d.status_mapping ∧
    (textTrunc d).buttons = d.buttons ∧
    (textTrunc d).header = d.header ∧
    (textTrunc d).title = d.title ∧
    (textTrunc d).datetime = d.datetime ∧
    (textTrunc d).context = d.context := by
  unfold textTrunc
  cases truthy d.text <;> dsimp only <;> exact ⟨rfl, rfl, rfl, rfl, rfl, rfl, rfl⟩

lemma textTrunc_idem (d : Block) : textTrunc (textTrunc d) = textTrunc d := by
  cases ht : truthy d.text with
  | none =>
    have h1 : textTrunc d = d := by unfold textTrunc; rw [ht]
    rw [h1]
    exact h1
  | some s =>
    have h1 : textTrunc d =
        { d with text := some (if s.length ≤ 2500 then s else strTake s 2500) } := by
      unfold textTrunc; rw [ht]
    have hle : (if s.length ≤ 2500 then s else strTake s 2500).length ≤ 2500 := by
      by_cases hs : s.length ≤ 2500
      · rw [if_pos hs]; exact hs
      · rw [if_neg hs, strTake_length]
        exact Nat.min_le_left _ _
    rw [h1]
    unfold textTrunc
    dsimp only
    cases htu : truthy (some (if s.length ≤ 2500 then s else strTake s 2500)) with
    | none => rfl
    | some u =>
      have hu : some u = some (if s.length ≤ 2500 then s else strTake s 2500) :=
        (truthy_eq_some _ _ htu).symm
      cases hu
      dsimp only
      rw [if_pos hle]

lemma droppedBlock_textTrunc (d : Block) :
    droppedBlock tmpl ctx (textTrunc d) = droppedBlock tmpl ctx d := by
  unfold droppedBlock
  rw [(textTrunc_fields d).1]

lemma droppedBlock_ctx_irrel (ctx' : Ctx) (hid : ∀ s c, tmpl s c = s) (d : Block) :
    droppedBlock tmpl ctx d = droppedBlock tmpl ctx' d := by
  unfold droppedBlock
  cases truthy d.title_link <;> simp [hid]

lemma renderButton_id (hid : ∀ s c, tmpl s c = s) (b : Button) :
    renderButton tmpl ctx b = b := by
  obtain ⟨bt, bv, ba, bu⟩ := b
  cases ba with
  | none =>
    cases bu with
    | none => simp [renderButton, truthy, hid]
    | some u =>
      by_cases hu : u = "" <;> simp [renderButton, truthy, hid, hu]
  | some a =>
    cases bu with
    | none => by_cases ha : a = "" <;> simp [renderButton, truthy, hid, ha]
    | some u =>
      by_cases ha : a = "" <;> by_cases hu : u = "" <;>
        simp [renderButton, truthy, hid, ha, hu]

lemma renderHead_id (hid : ∀ s c, tmpl s c = s) (d : Block) :
    renderHead tmpl ctx d = d := by
  unfold renderHead
  cases hh : truthy d.header with
  | none =>
    dsimp only
    cases hT : truthy d.title with
    | none => rfl
    | some s =>
      dsimp only
      rw [hid, ← truthy_eq_some _ _ hT]
  | some s =>
    dsimp only
    cases hT : truthy ({ d with header := some (tmpl s ctx) } : Block).title with
    | none =>
      dsimp only
      rw [hid, ← truthy_eq_some _ _ hh]
    | some t =>
      dsimp only
      have hT' : truthy d.title = some t := hT
      rw [hid, hid, ← truthy_eq_some _ _ hT', ← truthy_eq_some _ _ hh]

lemma renderTail_id (hid : ∀ s c, tmpl s c = s) (d : Block) :
    renderTail tmpl ctx d = d := by
  unfold renderTail
  cases hh : truthy d.datetime with
  | none =>
    dsimp only
    cases hT : truthy d.context with
    | none => rfl
    | some s =>
      dsimp only
      rw [hid, ← truthy_eq_some _ _ hT]
  | some s =>
    dsimp only
    cases hT : truthy ({ d with datetime := some (tmpl s ctx) } : Block).context with
    | none =>
      dsimp only
      rw [hid, ← truthy_eq_some _ _ hh]
    | some t =>
      dsimp only
      have hT' : truthy d.context = some t := hT
      rw [hid, hid, ← truthy_eq_some _ _ hT', ← truthy_eq_some _ _ hh]

lemma linkStage_id (hid : ∀ s c, tmpl s c = s) (d : Block)
    (hkeep : droppedBlock tmpl ctx d = false) :
    linkStage tmpl ctx d = some d := by
  unfold linkStage
  unfold droppedBlock at hkeep
  cases hl : truthy d.title_link with
  | none => rfl
  | some s =>
    rw [hl] at hkeep
    dsimp only at hkeep ⊢
    rw [hid] at hkeep ⊢
    simp only [Bool.or_eq_false_iff, decide_eq_false_iff_not] at hkeep
    rw [if_neg hkeep.1, if_neg hkeep.2, ← truthy_eq_some _ _ hl]

lemma renderBlockRest_id (hid : ∀ s c, tmpl s c = s) (d : Block)
    (hsm : truthyList d.status_mapping = none) :
    renderBlockRest tmpl ctx d = .ok (textTrunc d) := by
  unfold renderBlockRest
  cases ht : truthy d.text with
  | none =>
    dsimp only
    have htr : textTrunc d = d := by unfold textTrunc; rw [ht]
    cases hb : truthyList d.buttons with
    | none =>
      dsimp only
      rw [hsm]
      dsimp only
      rw [renderTail_id tmpl ctx hid, htr]
    | some bs =>
      dsimp only
      have hmap : bs.map (renderButton tmpl ctx) = bs :=
        List.map_id'' (renderButton_id tmpl ctx hid) bs
      have hrec : ({ d with buttons := some bs } : Block) = d := by
        rw [← truthyList_eq_some _ _ hb]
      rw [hmap, hrec, hsm]
      dsimp only
      rw [renderTail_id tmpl ctx hid, htr]
  | some s =>
    dsimp only
    rw [hid]
    have htr : ({ d with text := some (if s.length ≤ 2500 then s
        else strTake s 2500) } : Block) = textTrunc d := by
      unfold textTrunc; rw [ht]
    rw [htr]
    cases hb : truthyList d.buttons with
    | none =>
      dsimp only
      rw [(textTrunc_fields d).2.1, hsm]
      dsimp only
      rw [renderTail_id tmpl ctx hid]
    | some bs =>
      dsimp only
      have hmap : bs.map (renderButton tmpl ctx) = bs :=
        List.map_id'' (renderButton_id tmpl ctx hid) bs
      have hbs := truthyList_eq_some _ _ hb
      rw [hmap, ← hbs, htr, hsm]
      dsimp only
      rw [renderTail_id tmpl ctx hid]

lemma renderBlock_id (hid : ∀ s c, tmpl s c = s) (d : Block)
    (hsm : truthyList d.status_mapping = none) :
    renderBlock tmpl ctx d =
      if droppedBlock tmpl ctx d then .ok none else .ok (some (textTrunc d)) := by
  unfold renderBlock
  rw [renderHead_id tmpl ctx hid d]
  cases hdr : droppedBlock tmpl ctx d with
  | true =>
    have hl := (dropped_iff_linkStage_none tmpl ctx d).mp hdr
    rw [renderHead_id tmpl ctx hid d] at hl
    rw [hl]
    simp
  | false =>
    rw [linkStage_id tmpl ctx hid d hdr]
    dsimp only
    rw [renderBlockRest_id tmpl ctx hid d hsm]
    simp [Except.map]

end RendererLemmas

/-- C3: a block whose truthy `title_link` resolves to the empty string or to
the literal string "None" is excluded from the output without raising; on a
successful render the output is the in-order sequence of the kept blocks'
renderings, and the output length is the input length minus the number of
dropped blocks. -/
theorem C3_dropped_blocks (tmpl : String → Ctx → String) (ctx : Ctx)
    (blocks out : List Block)
    (h : render_message_template tmpl ctx blocks = .ok out) :
    out = blocks.filterMap (keptRender tmpl ctx) ∧
    out.length = blocks.length - blocks.countP (droppedBlock tmpl ctx) ∧
    ∀ d ∈ blocks, droppedBlock tmpl ctx d = true →
      renderBlock tmpl ctx d = .ok none := by
  induction blocks generalizing out with
  | nil =>
    unfold render_message_template at h
    cases h
    exact ⟨rfl, rfl, by intro d hd; cases hd⟩
  | cons d rest ih =>
    obtain ⟨r, tail, hr, ht, hout⟩ := render_cons_ok tmpl ctx d rest out h
    obtain ⟨ih1, ih2, ih3⟩ := ih tail ht
    cases r with
    | none =>
      have hdrop : droppedBlock tmpl ctx d = true :=
        (renderBlock_ok_none_iff tmpl ctx d).mp hr
      have hkept : keptRender tmpl ctx d = none := by
        unfold keptRender; rw [hr]
      refine ⟨?_, ?_, ?_⟩
      · simpa [List.filterMap_cons, hkept, hout] using ih1
      · simp only [hout, List.countP_cons, hdrop, List.length_cons, if_pos]
        rw [ih2]
        omega
      · intro d' hd' hdrop'
        rcases List.mem_cons.mp hd' with h1 | h1
        · subst h1; exact hr
        · exact ih3 d' h1 hdrop'
    | some b =>
      have hdrop : droppedBlock tmpl ctx d = false := by
        by_contra hcon
        have : droppedBlock tmpl ctx d = true := by
          cases hdb : droppedBlock tmpl ctx d
          · exact absurd hdb hcon
          · rfl
        rw [← renderBlock_ok_none_iff tmpl ctx d] at this
        rw [hr] at this
        cases this
      have hkept : keptRender tmpl ctx d = some b := by
        unfold keptRender; rw [hr]
      have hle := List.countP_le_length (p := droppedBlock tmpl ctx) (l := rest)
      refine ⟨?_, ?_, ?_⟩
      · simp only [hout, List.filterMap_cons, hkept, ih1]
      · rw [hout]
        simp only [List.length_cons, List.countP_cons, hdrop]
        simp only [Bool.false_eq_true, if_false]
        omega
      · intro d' hd' hdrop'
        rcases List.mem_cons.mp hd' with h1 | h1
        · subst h1; rw [hdrop'] at hdrop; cases hdrop
        · exact ih3 d' h1 hdrop'

/-- C3 witness: a concrete render with one dropped and one kept block. -/
theorem C3_dropped_blocks_witness :
    render_message_template (fun s _ => s) []
        [{ title_link := some "None" }, { title := some "x" }] =
      .ok [{ title := some "x" }] ∧
    ([{ title := some "x" }] : List Block) =
      [{ title_link := some "None" }, { title := some "x" }].filterMap
        (keptRender (fun s _ => s) []) ∧
    ([{ title := some "x" }] : List Block).length =
      [{ title_link := some "None" }, ({ title := some "x" } : Block)].length -
        [{ title_link := some "None" }, ({ title := some "x" } : Block)].countP
          (droppedBlock (fun s _ => s) []) ∧
    ∀ d ∈ [{ title_link := some "None" }, ({ title := some "x" } : Block)],
      droppedBlock (fun s _ => s) [] d = true →
        renderBlock (fun s _ => s) [] d = .ok none := by
  have h : render_message_template (fun s _ => s) []
      [{ title_link := some "None" }, { title := some "x" }] =
      .ok [{ title := some "x" }] := by rfl
  have h2 := C3_dropped_blocks (fun s _ => s) []
    [{ title_link := some "None" }, { title := some "x" }]
    [{ title := some "x" }] h
  exact ⟨h, h2.1, h2.2.1, h2.2.2⟩

/-- C4 counterexample: the claim "text of 2500 characters or fewer is left
unchanged" fails for a block that also carries a `status_mapping`: its
rendered text "hi" (2 characters) is replaced by the mapping value "Open". -/
theorem C4_counterexample :
    renderBlock (fun s _ => s) [("status", "open")]
        { text := some "hi", status_mapping := some [("open", "Open")] } =
      .ok (some { text := some "Open", status_mapping := some [("open", "Open")] }) ∧
    truthy ({ text := some "hi",
              status_mapping := some [("open", "Open")] } : Block).text = some "hi" ∧
    ((fun (s : String) (_ : Ctx) => s) "hi" [("status", "open")]).length ≤ 2500 ∧
    (some "Open" : Option String) ≠ some "hi" := by
  exact ⟨rfl, rfl, by decide, by decide⟩

/-- C4 amended: for every block that is kept in the output, whose `text`
field is truthy and whose `status_mapping` is not applied (absent or empty),
a rendered text longer than 2500 characters is replaced by exactly its first
2500 characters (output length exactly 2500), and a rendered text of at most
2500 characters is left unchanged.  (The original claim, without the
no-`status_mapping` condition, is refuted by `C4_counterexample`: the
`status_mapping` replacement happens after truncation and discards the
rendered text.) -/
theorem C4_truncation_amended (tmpl : String → Ctx → String) (ctx : Ctx)
    (d : Block) (s : String) (b : Block)
    (hkeep : renderBlock tmpl ctx d = .ok (some b))
    (htext : truthy d.text = some s)
    (hsm : truthyList d.status_mapping = none) :
    ((tmpl s ctx).length > 2500 →
        b.text = some (strTake (tmpl s ctx) 2500) ∧
        (strTake (tmpl s ctx) 2500).length = 2500) ∧
    ((tmpl s ctx).length ≤ 2500 → b.text = some (tmpl s ctx)) := by
  obtain ⟨d2, _, hrest, hdtext, _, hdsm⟩ :=
    renderBlock_ok_some_elim tmpl ctx d b hkeep
  have hbtext := renderBlockRest_text_no_sm tmpl ctx d2 s b
    (by rw [hdtext]; exact htext) (by rw [hdsm]; exact hsm) hrest
  constructor
  · intro hlong
    have hnotle : ¬ (tmpl s ctx).length ≤ 2500 := Nat.not_le.mpr hlong
    rw [if_neg hnotle] at hbtext
    refine ⟨hbtext, ?_⟩
    rw [strTake_length]
    exact Nat.min_eq_left (Nat.le_of_lt hlong)
  · intro hshort
    rw [if_pos hshort] at hbtext
    exact hbtext

/-- C4 witness: the amended theorem applied at a concrete kept block whose
text stays under the bound and is left unchanged. -/
theorem C4_truncation_amended_witness :
    (renderBlock (fun s _ => s) [] { text := some "hello" } =
        .ok (some { text := some "hello" }) ∧
      truthy ({ text := some "hello" } : Block).text = some "hello" ∧
      truthyList ({ text := some "hello" } : Block).status_mapping = none) ∧
    ((("hello" : String).length > 2500 →
        ({ text := some "hello" } : Block).text = some (strTake "hello" 2500) ∧
        (strTake "hello" 2500).length = 2500) ∧
      (("hello" : String).length ≤ 2500 →
        ({ text := some "hello" } : Block).text = some "hello")) := by
  have h1 : renderBlock (fun s _ => s) [] { text := some "hello" } =
      .ok (some { text := some "hello" }) := by rfl
  have h2 : truthy ({ text := some "hello" } : Block).text = some "hello" := by decide
  exact ⟨⟨h1, h2, rfl⟩,
    C4_truncation_amended (fun s _ => s) [] { text := some "hello" }
      "hello" { text := some "hello" } h1 h2 rfl⟩

/-- C5 counterexample: a block carrying a (nonempty) `status_mapping` whose
status value is not a key of the mapping, but whose `title_link` renders to
"None": the block is skipped before the `status_mapping` step runs, so the
render call succeeds instead of failing as the claim states. -/
theorem C5_counterexample :
    truthyList ({ title_link := some "None",
                  status_mapping := some [("open", "Open")] } : Block).status_mapping =
      some [("open", "Open")] ∧
    lookupS [("status", "weird")] "status" = some "weird" ∧
    lookupS [("open", "Open")] "weird" = none ∧
    render_message_template (fun s _ => s) [("status", "weird")]
        [{ title_link := some "None", status_mapping := some [("open", "Open")] }] =
      .ok [] := by
  exact ⟨by decide, by decide, by decide, rfl⟩

/-- C5 amended: for every block with a nonempty `status_mapping` that is not
dropped by the `title_link` rule, the rendered text is replaced by the
mapping value at `context["status"]`, and when the status value is missing
from the context or is not a key of the mapping, the block raises and the
whole render call fails.  (The original claim, which asserted this for every
block with a `status_mapping` present, is refuted by `C5_counterexample`: a
dropped block never reaches the `status_mapping` step.) -/
theorem C5_status_mapping_amended (tmpl : String → Ctx → String) (ctx : Ctx)
    (d : Block) (m : List (String × String))
    (hsm : truthyList d.status_mapping = some m)
    (hkeep : droppedBlock tmpl ctx d = false) :
    (∀ st v, lookupS ctx "status" = some st → lookupS m st = some v →
        ∃ b, renderBlock tmpl ctx d = .ok (some b) ∧ b.text = some v) ∧
    ((lookupS ctx "status" = none ∨
        (∃ st, lookupS ctx "status" = some st ∧ lookupS m st = none)) →
      renderBlock tmpl ctx d = .error () ∧
      ∀ blocks, d ∈ blocks →
        render_message_template tmpl ctx blocks = .error ()) := by
  cases hl : linkStage tmpl ctx (renderHead tmpl ctx d) with
  | none =>
    rw [← dropped_iff_linkStage_none] at hl
    rw [hl] at hkeep
    cases hkeep
  | some d2 =>
    have hrb : renderBlock tmpl ctx d = (renderBlockRest tmpl ctx d2).map some := by
      unfold renderBlock
      rw [hl]
    have hsm2 : truthyList d2.status_mapping = some m := by
      rw [(linkStage_some_fields tmpl ctx _ d2 hl).2.2.1,
        (renderHead_fields tmpl ctx d).2.2.2.1]
      exact hsm
    obtain ⟨herr1, herr2, hok⟩ := renderBlockRest_sm tmpl ctx d2 m hsm2
    constructor
    · intro st v hst hv
      obtain ⟨b, hb, hbt⟩ := hok st v hst hv
      refine ⟨b, ?_, hbt⟩
      rw [hrb, hb]
      rfl
    · intro hfail
      have herr : renderBlockRest tmpl ctx d2 = .error () := by
        rcases hfail with h1 | ⟨st, hst, hv⟩
        · exact herr1 h1
        · exact herr2 st hst hv
      have hrbe : renderBlock tmpl ctx d = .error () := by
        rw [hrb, herr]
        rfl
      exact ⟨hrbe, fun blocks hmem =>
        render_error_of_mem tmpl ctx d blocks hmem hrbe⟩

/-- C5 witness: the amended theorem at a concrete block, exercising the
successful replacement. -/
theorem C5_status_mapping_amended_witness :
    (truthyList ({ text := some "x",
                   status_mapping := some [("open", "Open")] } : Block).status_mapping =
        some [("open", "Open")] ∧
      droppedBlock (fun s _ => s) [("status", "open")]
        { text := some "x", status_mapping := some [("open", "Open")] } = false) ∧
    ((∀ st v, lookupS [("status", "open")] "status" = some st →
        lookupS [("open", "Open")] st = some v →
        ∃ b, renderBlock (fun s _ => s) [("status", "open")]
            { text := some "x", status_mapping := some [("open", "Open")] } =
          .ok (some b) ∧ b.text = some v) ∧
      ((lookupS [("status", "open")] "status" = none ∨
          (∃ st, lookupS [("status", "open")] "status" = some st ∧
            lookupS [("open", "Open")] st = none)) →
        renderBlock (fun s _ => s) [("status", "open")]
            { text := some "x", status_mapping := some [("open", "Open")] } =
          .error () ∧
        ∀ blocks, ({ text := some "x",
                     status_mapping := some [("open", "Open")] } : Block) ∈ blocks →
          render_message_template (fun s _ => s) [("status", "open")] blocks =
            .error ())) :=
  ⟨⟨by decide, by decide⟩,
    C5_status_mapping_amended (fun s _ => s) [("status", "open")]
      { text := some "x", status_mapping := some [("open", "Open")] }
      [("open", "Open")] (by decide) (by decide)⟩

/-- C10: for a block with both a truthy text field and a nonempty
`status_mapping` that is kept in the output, the final text is exactly the
mapping value for the context's status — for every template engine (so
regardless of what the text template rendered to) and for every mapping
value (so the 2500-character truncation, which runs before the replacement,
is not applied to the mapping value). -/
theorem C10_status_mapping_after_truncation (tmpl : String → Ctx → String)
    (ctx : Ctx) (d : Block) (m : List (String × String)) (st v : String)
    (b : Block)
    (_htext : d.text ≠ none)
    (hsm : truthyList d.status_mapping = some m)
    (hst : lookupS ctx "status" = some st)
    (hv : lookupS m st = some v)
    (hb : renderBlock tmpl ctx d = .ok (some b)) :
    b.text = some v := by
  obtain ⟨d2, hl, hrest, _, _, hdsm⟩ := renderBlock_ok_some_elim tmpl ctx d b hb
  have hsm2 : truthyList d2.status_mapping = some m := by
    rw [hdsm]; exact hsm
  obtain ⟨b', hb', hbt⟩ :=
    (renderBlockRest_sm tmpl ctx d2 m hsm2).2.2 st v hst hv
  rw [hrest] at hb'
  cases hb'
  exact hbt

/-- C10 witness: a concrete block whose rendered text is discarded in favor
of the mapping value. -/
theorem C10_status_mapping_after_truncation_witness :
    (blockC10w.text ≠ none ∧
      truthyList blockC10w.status_mapping = some mC10 ∧
      lookupS [("status", "open")] "status" = some "open" ∧
      lookupS mC10 "open" = some "The incident is open" ∧
      renderBlock (fun _ _ => "short") [("status", "open")] blockC10w =
        .ok (some blockC10w')) ∧
    blockC10w'.text = some "The incident is open" :=
  ⟨⟨by decide, by decide, by decide, by decide, by rfl⟩,
    C10_status_mapping_after_truncation (fun _ _ => "short") [("status", "open")]
      blockC10w mC10 "open" "The incident is open" blockC10w'
      (by decide) (by decide) (by decide) (by decide) (by rfl)⟩

/-- C9 counterexample: a block with only constant fields (the engine is the
identity on them) but with a `status_mapping`: the first render succeeds,
yet re-rendering its output with the empty context raises on the
`context["status"]` lookup, so render(render(b, ctx), empty) is an error,
not render(b, ctx). -/
theorem C9_counterexample :
    render_message_template (fun s _ => s) [("status", "open")] [blockC9] =
      .ok [blockC9'] ∧
    render_message_template (fun s _ => s) [] [blockC9'] = .error () := by
  exact ⟨rfl, rfl⟩

/-- C9 amended: rendering is idempotent on blocks with no templated fields
and no (nonempty) `status_mapping`: when the engine leaves every string
unchanged and no block carries a truthy `status_mapping`, rendering a
successful output again with the empty context reproduces it exactly.  (The
original claim, without the `status_mapping` exclusion, is refuted by
`C9_counterexample`.) -/
theorem C9_idempotent_amended (tmpl : String → Ctx → String) (ctx : Ctx)
    (blocks out : List Block)
    (hid : ∀ s c, tmpl s c = s)
    (hsm : ∀ d ∈ blocks, truthyList d.status_mapping = none)
    (h : render_message_template tmpl ctx blocks = .ok out) :
    render_message_template tmpl [] out = .ok out := by
  induction blocks generalizing out with
  | nil =>
    unfold render_message_template at h
    cases h
    rfl
  | cons d rest ih =>
    obtain ⟨r, tail, hr, ht, hout⟩ := render_cons_ok tmpl ctx d rest out h
    have hsmd := hsm d (List.mem_cons_self d rest)
    have hsmrest : ∀ d' ∈ rest, truthyList d'.status_mapping = none :=
      fun d' hd' => hsm d' (List.mem_cons_of_mem d hd')
    have htail := ih tail hsmrest ht
    rw [renderBlock_id tmpl ctx hid d hsmd] at hr
    cases hdr : droppedBlock tmpl ctx d with
    | true =>
      rw [hdr] at hr
      simp only [if_pos] at hr
      cases hr
      rw [hout]
      exact htail
    | false =>
      rw [hdr] at hr
      simp only [Bool.false_eq_true, if_false] at hr
      cases hr
      rw [hout]
      have hsm' : truthyList (textTrunc d).status_mapping = none := by
        rw [(textTrunc_fields d).2.1]
        exact hsmd
      have hdr' : droppedBlock tmpl [] (textTrunc d) = false := by
        rw [droppedBlock_ctx_irrel tmpl [] ctx hid, droppedBlock_textTrunc, hdr]
      unfold render_message_template
      rw [renderBlock_id tmpl [] hid (textTrunc d) hsm', hdr']
      simp only [Bool.false_eq_true, if_false]
      rw [textTrunc_idem, htail]

/-- C9 witness: the amended theorem at a concrete constant block. -/
theorem C9_idempotent_amended_witness :
    ((∀ s c, (fun (s : String) (_ : Ctx) => s) s c = s) ∧
      (∀ d ∈ [blockC9w], truthyList d.status_mapping = none) ∧
      render_message_template (fun s _ => s) [("k", "v")] [blockC9w] =
        .ok [blockC9w]) ∧
    render_message_template (fun s _ => s) [] [blockC9w] = .ok [blockC9w] := by
  have h : render_message_template (fun s _ => s) [("k", "v")] [blockC9w] =
      .ok [blockC9w] := by rfl
  exact ⟨⟨fun s c => rfl, by decide, h⟩,
    C9_idempotent_amended (fun s _ => s) [("k", "v")] [blockC9w] [blockC9w]
      (fun s c => rfl) (by decide) h⟩

section ParticipantLemmas

lemma prca_spec (rs : List String) (db : Db) :
    (participant_role_create_all db rs).1.participants = db.participants ∧
    (participant_role_create_all db rs).1.incidents = db.incidents ∧
    (participant_role_create_all db rs).1.individuals = db.individuals ∧
    (participant_role_create_all db rs).1.services = db.services ∧
    (participant_role_create_all db rs).1.contactPlugin = db.contactPlugin ∧
    (participant_role_create_all db rs).1.nextParticipantId = db.nextParticipantId ∧
    (participant_role_create_all db rs).2.map ParticipantRole.role = rs := by
  induction rs generalizing db with
  | nil => exact ⟨rfl, rfl, rfl, rfl, rfl, rfl, rfl⟩
  | cons r rs ih =>
    have ih' := ih ((participant_role_create db r).1)
    refine ⟨ih'.1, ih'.2.1, ih'.2.2.1, ih'.2.2.2.1, ih'.2.2.2.2.1, ih'.2.2.2.2.2.1, ?_⟩
    show ((participant_role_create db r).2 ::
        (participant_role_create_all (participant_role_create db r).1 rs).2).map
        ParticipantRole.role = r :: rs
    rw [List.map_cons, ih'.2.2.2.2.2.2]
    rfl

lemma mem_unique_by_id (l : List Participant)
    (hp : l.Pairwise (fun p q => p.id ≠ q.id))
    (p p' : Participant) (hmem : p ∈ l) (hmem' : p' ∈ l) (hid : p'.id = p.id) :
    p' = p := by
  induction l with
  | nil => cases hmem
  | cons x xs ih =>
    rcases List.pairwise_cons.mp hp with ⟨hx, hxs⟩
    rcases List.mem_cons.mp hmem with h1 | h1 <;>
      rcases List.mem_cons.mp hmem' with h2 | h2
    · rw [h1, h2]
    · exfalso
      apply hx p' h2
      rw [hid, h1]
    · exfalso
      apply hx p h1
      rw [← hid, h2]
    · exact ih hxs h1 h2

lemma filter_map_comm {α : Type} (l : List α) (f : α → α) (pr : α → Bool)
    (h : ∀ a ∈ l, pr (f a) = pr a) :
    (l.map f).filter pr = (l.filter pr).map f := by
  rw [List.filter_map]
  congr 1
  exact List.filter_congr h

lemma service_get_congr (db1 db2 : Db) (sid : Option Nat)
    (h : db1.services = db2.services) :
    service_get db1 sid = service_get db2 sid := by
  unfold service_get
  cases sid with
  | none => rfl
  | some s => rw [h]

lemma find?_eraseP_none (l : List Participant) (pid : Nat)
    (hp : l.Pairwise (fun p q => p.id ≠ q.id)) :
    (l.eraseP (fun q => q.id == pid)).find? (fun q => q.id == pid) = none := by
  induction l with
  | nil => rfl
  | cons x xs ih =>
    rcases List.pairwise_cons.mp hp with ⟨hx, hxs⟩
    cases hxp : (x.id == pid) with
    | true =>
      simp only [List.eraseP_cons, hxp, cond_true]
      apply List.find?_eq_none.mpr
      intro q hq
      have hne := hx q hq
      simp only [beq_iff_eq] at hxp
      simp only [beq_iff_eq]
      intro hq'
      exact hne (by rw [hxp, hq'])
    | false =>
      simp only [List.eraseP_cons, hxp, cond_false]
      rw [List.find?_cons, hxp]
      exact ih hxs

lemma create_fields (db : Db) (pin : ParticipantCreate) :
    (create db pin).2.team = pin.team ∧
    (create db pin).2.department = pin.department ∧
    (create db pin).2.location = pin.location ∧
    (create db pin).2.id = db.nextParticipantId ∧
    (create db pin).1.participants =
      db.participants ++ [(create db pin).2] ∧
    (create db pin).1.nextParticipantId = db.nextParticipantId + 1 := by
  have hp := prca_spec pin.participant_roles db
  refine ⟨rfl, rfl, rfl, hp.2.2.2.2.2.1, ?_, ?_⟩
  · show (participant_role_create_all db pin.participant_roles).1.participants ++
        [(create db pin).2] = db.participants ++ [(create db pin).2]
    rw [hp.1]
  · show (participant_role_create_all db pin.participant_roles).1.nextParticipantId + 1 =
        db.nextParticipantId + 1
    rw [hp.2.2.2.2.2.1]

lemma create_service_preserved (db : Db) (pin : ParticipantCreate)
    (hwf : WfDb db) : ServicePreserved db (create db pin).1 := by
  intro p hmem s hs p' hmem' hid
  rw [(create_fields db pin).2.2.2.2.1] at hmem'
  rcases List.mem_append.mp hmem' with h1 | h1
  · rw [mem_unique_by_id db.participants hwf.1 p p' hmem h1 hid]
    exact hs
  · exfalso
    have h2 : p' = (create db pin).2 := List.mem_singleton.mp h1
    have h3 : p'.id = db.nextParticipantId := by
      rw [h2]
      exact (create_fields db pin).2.2.2.1
    have h4 := hwf.2 p hmem
    have h5 : p.id = db.nextParticipantId := by rw [← hid, h3]
    rw [h5] at h4
    exact Nat.lt_irrefl _ h4

lemma replace_run (db : Db) (inc ind : Nat) (pf p2c : Participant)
    (hwf : WfDb db)
    (hfind : filterPair db inc ind = [pf])
    (hid : p2c.id = pf.id)
    (hinc2 : p2c.incident_id = pf.incident_id)
    (hind2 : p2c.individual_contact_id = pf.individual_contact_id) :
    (db.participants.map (fun q => if q.id == pf.id then p2c else q)).filter
        (fun p => p.incident_id == some inc && p.individual_contact_id == some ind) =
      [p2c] ∧
    (db.participants.map (fun q => if q.id == pf.id then p2c else q)).Pairwise
        (fun p q => p.id ≠ q.id) ∧
    (∀ p' ∈ db.participants.map (fun q => if q.id == pf.id then p2c else q),
        p'.id < db.nextParticipantId) := by
  have hmemf : pf ∈ filterPair db inc ind := by
    rw [hfind]
    exact List.mem_singleton.mpr rfl
  have hmem : pf ∈ db.participants := List.mem_of_mem_filter hmemf
  have hfind' : db.participants.filter
      (fun p => p.incident_id == some inc && p.individual_contact_id == some ind) =
      [pf] := hfind
  have hfid : ∀ q : Participant,
      (if q.id == pf.id then p2c else q).id = q.id := by
    intro q
    by_cases hq : (q.id == pf.id) = true
    · rw [if_pos hq, hid]
      exact (beq_iff_eq.mp hq).symm
    · rw [if_neg hq]
  refine ⟨?_, ?_, ?_⟩
  · rw [filter_map_comm]
    · rw [hfind', List.map_cons, List.map_nil, if_pos (beq_self_eq_true pf.id)]
    · intro q hq
      by_cases hqq : (q.id == pf.id) = true
      · have hq2 : q = pf :=
          mem_unique_by_id db.participants hwf.1 pf q hmem hq (beq_iff_eq.mp hqq)
        rw [if_pos hqq, hq2]
        show (p2c.incident_id == some inc && p2c.individual_contact_id == some ind) =
          (pf.incident_id == some inc && pf.individual_contact_id == some ind)
        rw [hinc2, hind2]
      · rw [if_neg hqq]
  · refine List.pairwise_map.mpr (hwf.1.imp ?_)
    intro a b hab
    show (if a.id == pf.id then p2c else a).id ≠ (if b.id == pf.id then p2c else b).id
    rw [hfid a, hfid b]
    exact hab
  · intro p' hp'
    obtain ⟨q, hq, hfq⟩ := List.mem_map.mp hp'
    rw [← hfq]
    show (if q.id == pf.id then p2c else q).id < db.nextParticipantId
    rw [hfid q]
    exact hwf.2 q hq

lemma goc_found_run (db : Db) (inc ind : Nat) (sid : Option Nat)
    (roles : List String) (pf : Participant)
    (hwf : WfDb db)
    (hfind : filterPair db inc ind = [pf]) :
    ∃ db' r,
      get_or_create db inc ind sid roles = some (db', r) ∧
      r.id = pf.id ∧
      r.incident_id = pf.incident_id ∧
      r.individual_contact_id = pf.individual_contact_id ∧
      r.participant_roles.map ParticipantRole.role =
        pf.participant_roles.map ParticipantRole.role ++ roles ∧
      r.service_id =
        (if pf.service_id = none then service_get db sid else pf.service_id) ∧
      filterPair db' inc ind = [r] ∧ WfDb db' ∧ db'.services = db.services := by
  have hprca := prca_spec roles db
  have hsgc : service_get (participant_role_create_all db roles).1 sid =
      service_get db sid :=
    service_get_congr _ _ sid hprca.2.2.2.1
  unfold get_or_create
  rw [hfind]
  simp only [one_or_none]
  cases hps : pf.service_id with
  | some s0 =>
    have hc : ¬ ((some s0 : Option Nat) = none) := by simp
    simp only [if_neg hc]
    refine ⟨_, _, rfl, rfl, rfl, rfl, ?_, rfl, ?_, ?_, ?_⟩
    · show (pf.participant_roles ++ (participant_role_create_all db roles).2).map
          ParticipantRole.role =
        pf.participant_roles.map ParticipantRole.role ++ roles
      rw [List.map_append, hprca.2.2.2.2.2.2]
    · dsimp only [filterPair]
      rw [hprca.1]
      exact (replace_run db inc ind pf _ hwf hfind (by rfl) (by rfl) (by rfl)).1
    · constructor
      · dsimp only
        rw [hprca.1]
        exact (replace_run db inc ind pf _ hwf hfind (by rfl) (by rfl) (by rfl)).2.1
      · dsimp only
        rw [hprca.1, hprca.2.2.2.2.2.1]
        exact (replace_run db inc ind pf _ hwf hfind (by rfl) (by rfl) (by rfl)).2.2
    · exact hprca.2.2.2.1
  | none =>
    simp only [if_pos (show (none : Option Nat) = none from rfl)]
    rw [hsgc]
    cases hsg : service_get db sid with
    | some sid' =>
      refine ⟨_, _, rfl, rfl, rfl, rfl, ?_, rfl, ?_, ?_, ?_⟩
      · show (pf.participant_roles ++ (participant_role_create_all db roles).2).map
            ParticipantRole.role =
          pf.participant_roles.map ParticipantRole.role ++ roles
        rw [List.map_append, hprca.2.2.2.2.2.2]
      · dsimp only [filterPair]
        rw [hprca.1]
        exact (replace_run db inc ind pf _ hwf hfind (by rfl) (by rfl) (by rfl)).1
      · constructor
        · dsimp only
          rw [hprca.1]
          exact (replace_run db inc ind pf _ hwf hfind (by rfl) (by rfl) (by rfl)).2.1
        · dsimp only
          rw [hprca.1, hprca.2.2.2.2.2.1]
          exact (replace_run db inc ind pf _ hwf hfind (by rfl) (by rfl) (by rfl)).2.2
      · exact hprca.2.2.2.1
    | none =>
      refine ⟨_, _, rfl, rfl, rfl, rfl, ?_, rfl, ?_, ?_, ?_⟩
      · show (pf.participant_roles ++ (participant_role_create_all db roles).2).map
            ParticipantRole.role =
          pf.participant_roles.map ParticipantRole.role ++ roles
        rw [List.map_append, hprca.2.2.2.2.2.2]
      · dsimp only [filterPair]
        rw [hprca.1]
        exact (replace_run db inc ind pf _ hwf hfind (by rfl) (by rfl) (by rfl)).1
      · constructor
        · dsimp only
          rw [hprca.1]
          exact (replace_run db inc ind pf _ hwf hfind (by rfl) (by rfl) (by rfl)).2.1
        · dsimp only
          rw [hprca.1, hprca.2.2.2.2.2.1]
          exact (replace_run db inc ind pf _ hwf hfind (by rfl) (by rfl) (by rfl)).2.2
      · exact hprca.2.2.2.1

lemma one_or_none_ok_some {α : Type} (l : List α) (a : α)
    (h : one_or_none l = .ok (some a)) : l = [a] := by
  match l with
  | [] => cases h
  | [x] =>
    unfold one_or_none at h
    cases h
    rfl
  | x :: y :: rest => cases h

lemma update_service_preserved (db : Db) (p0 : Participant)
    (pin : ParticipantUpdate) (hwf : WfDb db) (hmem0 : p0 ∈ db.participants) :
    ServicePreserved db (update db p0 pin).1 := by
  intro p hp s hs p' hp' hid
  obtain ⟨q, hq, hfq⟩ := List.mem_map.mp hp'
  by_cases hqq : (q.id == p0.id) = true
  · rw [if_pos hqq] at hfq
    have hid0 : p0.id = p.id := by
      rw [← hid, ← hfq]
    have h3 : p0 = p := mem_unique_by_id db.participants hwf.1 p p0 hp hmem0 hid0
    rw [← hfq]
    show p0.service_id = some s
    rw [h3]
    exact hs
  · rw [if_neg hqq] at hfq
    rw [← hfq] at hid ⊢
    rw [mem_unique_by_id db.participants hwf.1 p q hp hq hid]
    exact hs

lemma delete_service_preserved (db db' : Db) (pid : Nat)
    (hwf : WfDb db) (h : delete db pid = some db') :
    ServicePreserved db db' := by
  unfold delete at h
  cases hf : db.participants.find? (fun p => p.id == pid) with
  | none => rw [hf] at h; cases h
  | some x =>
    rw [hf] at h
    injection h with h1
    subst h1
    intro p hp s hs p' hp' hid
    have hsub : p' ∈ db.participants :=
      (List.eraseP_sublist db.participants).subset hp'
    rw [mem_unique_by_id db.participants hwf.1 p p' hp hsub hid]
    exact hs

lemma goc_service_preserved (db db' : Db) (inc ind : Nat) (sid : Option Nat)
    (roles : List String) (r : Participant)
    (hwf : WfDb db)
    (h : get_or_create db inc ind sid roles = some (db', r)) :
    ServicePreserved db db' := by
  have hprca := prca_spec roles db
  unfold get_or_create at h
  cases ho : one_or_none (filterPair db inc ind) with
  | error e => rw [ho] at h; cases h
  | ok o =>
    rw [ho] at h
    cases o with
    | some pf =>
      dsimp only at h
      injection h with h1
      injection h1 with h2 h3
      subst h2
      have hfp : filterPair db inc ind = [pf] := one_or_none_ok_some _ pf ho
      have hmemf : pf ∈ filterPair db inc ind := by
        rw [hfp]
        exact List.mem_singleton.mpr rfl
      have hmem : pf ∈ db.participants := List.mem_of_mem_filter hmemf
      intro p hp s hs p' hp' hid
      have hp'' : p' ∈ (participant_role_create_all db roles).1.participants.map
          (fun q => if q.id == pf.id then
            (if pf.service_id = none then
              match service_get (participant_role_create_all db roles).1 sid with
              | some sid' => { pf with
                  participant_roles :=
                    pf.participant_roles ++ (participant_role_create_all db roles).2,
                  service_id := some sid' }
              | none => { pf with
                  participant_roles :=
                    pf.participant_roles ++ (participant_role_create_all db roles).2 }
            else { pf with
              participant_roles :=
                pf.participant_roles ++ (participant_role_create_all db roles).2 })
          else q) := hp'
      rw [hprca.1] at hp''
      obtain ⟨q, hq, hfq⟩ := List.mem_map.mp hp''
      by_cases hqq : (q.id == pf.id) = true
      · have hqpf : q = pf :=
          mem_unique_by_id db.participants hwf.1 pf q hmem hq (beq_iff_eq.mp hqq)
        rw [if_pos hqq] at hfq
        have hidpf : pf.id = p.id := by
          rw [← hid, ← hfq]
          cases hps : pf.service_id with
          | none =>
            rw [if_pos rfl]
            cases service_get (participant_role_create_all db roles).1 sid <;> rfl
          | some s0 =>
            rw [if_neg (show ¬ ((some s0 : Option Nat) = none) by simp)]
        have hppf : pf = p := mem_unique_by_id db.participants hwf.1 p pf hp hmem hidpf
        have hpfs : pf.service_id = some s := by rw [hppf]; exact hs
        rw [if_neg (by rw [hpfs]; simp)] at hfq
        rw [← hfq]
        show pf.service_id = some s
        exact hpfs
      · rw [if_neg hqq] at hfq
        rw [← hfq] at hid ⊢
        rw [mem_unique_by_id db.participants hwf.1 p q hp hq hid]
        exact hs
    | none =>
      dsimp only at h
      cases hip : incident_project db inc with
      | none => rw [hip] at h; cases h
      | some proj =>
        rw [hip] at h
        cases hie : individual_email db ind with
        | none => rw [hie] at h; cases h
        | some email =>
          rw [hie] at h
          dsimp only at h
          injection h with h1
          have h2 := congrArg Prod.fst h1
          dsimp only at h2
          rw [← h2]
          exact create_service_preserved db _ hwf

end ParticipantLemmas

/-- C1: a participant's service association is one-way.  For every
well-formed session state: (a) a successful `get_or_create` never resets or
overwrites the set service of any existing participant, (b) `create` only
adds a new row and leaves every existing participant's service intact,
(c) `update` (whose update specification carries no service field) leaves
services intact, (d) a successful `delete` leaves every remaining
participant's service intact, and (e) in particular, for a participant of
the pair with no service yet, calling `get_or_create` with service A and
then with service B leaves the participant's service equal to A. -/
theorem C1_service_one_way (db : Db) (hwf : WfDb db) :
    (∀ inc ind sid roles db' r,
        get_or_create db inc ind sid roles = some (db', r) →
        ServicePreserved db db') ∧
    (∀ pin : ParticipantCreate, ServicePreserved db (create db pin).1) ∧
    (∀ p0 pin, p0 ∈ db.participants →
        ServicePreserved db (update db p0 pin).1) ∧
    (∀ pid db', delete db pid = some db' → ServicePreserved db db') ∧
    (∀ inc ind pf A B roles1 roles2,
        filterPair db inc ind = [pf] → pf.service_id = none →
        db.services.contains A = true →
        ∃ db1 r1 db2 r2,
          get_or_create db inc ind (some A) roles1 = some (db1, r1) ∧
          get_or_create db1 inc ind (some B) roles2 = some (db2, r2) ∧
          r1.id = pf.id ∧ r2.id = pf.id ∧
          r1.service_id = some A ∧ r2.service_id = some A) := by
  refine ⟨?_, ?_, ?_, ?_, ?_⟩
  · intro inc ind sid roles db' r h
    exact goc_service_preserved db db' inc ind sid roles r hwf h
  · intro pin
    exact create_service_preserved db pin hwf
  · intro p0 pin hmem0
    exact update_service_preserved db p0 pin hwf hmem0
  · intro pid db' h
    exact delete_service_preserved db db' pid hwf h
  · intro inc ind pf A B roles1 roles2 hfind hserv hA
    obtain ⟨db1, r1, hrun1, hid1, _, _, _, hs1, hfp1, hwf1, _⟩ :=
      goc_found_run db inc ind (some A) roles1 pf hwf hfind
    have hs1' : r1.service_id = some A := by
      rw [hs1, if_pos hserv]
      show (if db.services.contains A = true then some A else none) = some A
      rw [if_pos hA]
    obtain ⟨db2, r2, hrun2, hid2, _, _, _, hs2, _, _, _⟩ :=
      goc_found_run db1 inc ind (some B) roles2 r1 hwf1 hfp1
    rw [hs1'] at hs2
    rw [if_neg (show ¬ ((some A : Option Nat) = none) by simp)] at hs2
    exact ⟨db1, r1, db2, r2, hrun1, hrun2, hid1, by rw [hid2, hid1], hs1', hs2⟩

/-- C1 witness: the two-call scenario on a concrete session with one
service-less linked participant and services 5 and 7. -/
theorem C1_service_one_way_witness :
    WfDb dbFound ∧
    (∃ db1 r1 db2 r2,
      get_or_create dbFound 1 2 (some 5) ["incident-commander"] = some (db1, r1) ∧
      get_or_create db1 1 2 (some 7) ["liaison"] = some (db2, r2) ∧
      r1.id = pf0.id ∧ r2.id = pf0.id ∧
      r1.service_id = some 5 ∧ r2.service_id = some 5) :=
  ⟨⟨by decide, by decide⟩,
    (C1_service_one_way dbFound ⟨by decide, by decide⟩).2.2.2.2 1 2 pf0 5 7
      ["incident-commander"] ["liaison"] (by decide) (by decide) (by decide)⟩

/-- C2 counterexample: two consecutive `get_or_create` calls for the same
(incident, individual) pair on a state with no participant for it return
two different participants (ids 0 and 1), and the second participant's role
collection is only the second call's roles, not the concatenation of both.
The participant persisted by the first call has its `incident_id` and
`individual_contact_id` unset (the creation specification carries neither),
so the second lookup does not find it. -/
theorem C2_counterexample :
    ∃ db1 p1 db2 p2,
      get_or_create dbEmpty 1 2 none ["reporter"] = some (db1, p1) ∧
      get_or_create db1 1 2 none ["commander"] = some (db2, p2) ∧
      p1.id = 0 ∧ p2.id = 1 ∧ p1.id ≠ p2.id ∧
      p1.incident_id = none ∧
      p2.participant_roles.map ParticipantRole.role = ["commander"] ∧
      p2.participant_roles.map ParticipantRole.role ≠ ["reporter", "commander"] := by
  refine ⟨_, _, _, _, rfl, rfl, rfl, rfl, by decide, rfl, rfl, by decide⟩

/-- C2 amended: when a participant linked to the (incident, individual)
pair already exists, two consecutive `get_or_create` calls return that same
participant identity both times, and after the second call its role
collection is the original roles followed by the first call's roles followed
by the second call's (duplicates preserved).  (The claim as stated - for any
pair, starting from any state - is refuted by `C2_counterexample`: the
participant persisted by a first call is not linked to the pair, so a bare
second call creates a fresh participant.) -/
theorem C2_get_or_create_roles_amended (db : Db) (inc ind : Nat)
    (sid1 sid2 : Option Nat) (roles1 roles2 : List String) (pf : Participant)
    (hwf : WfDb db) (hfind : filterPair db inc ind = [pf]) :
    ∃ db1 r1 db2 r2,
      get_or_create db inc ind sid1 roles1 = some (db1, r1) ∧
      get_or_create db1 inc ind sid2 roles2 = some (db2, r2) ∧
      r1.id = pf.id ∧ r2.id = pf.id ∧
      r1.participant_roles.map ParticipantRole.role =
        pf.participant_roles.map ParticipantRole.role ++ roles1 ∧
      r2.participant_roles.map ParticipantRole.role =
        pf.participant_roles.map ParticipantRole.role ++ roles1 ++ roles2 := by
  obtain ⟨db1, r1, hrun1, hid1, _, _, hroles1, _, hfp1, hwf1, _⟩ :=
    goc_found_run db inc ind sid1 roles1 pf hwf hfind
  obtain ⟨db2, r2, hrun2, hid2, _, _, hroles2, _, _, _, _⟩ :=
    goc_found_run db1 inc ind sid2 roles2 r1 hwf1 hfp1
  refine ⟨db1, r1, db2, r2, hrun1, hrun2, hid1, by rw [hid2, hid1], hroles1, ?_⟩
  rw [hroles2, hroles1]

/-- C2 witness: the amended theorem on a concrete session with one linked
participant carrying one original role. -/
theorem C2_get_or_create_roles_amended_witness :
    (WfDb dbFound ∧ filterPair dbFound 1 2 = [pf0]) ∧
    (∃ db1 r1 db2 r2,
      get_or_create dbFound 1 2 none ["reporter"] = some (db1, r1) ∧
      get_or_create db1 1 2 none ["commander"] = some (db2, r2) ∧
      r1.id = pf0.id ∧ r2.id = pf0.id ∧
      r1.participant_roles.map ParticipantRole.role =
        pf0.participant_roles.map ParticipantRole.role ++ ["reporter"] ∧
      r2.participant_roles.map ParticipantRole.role =
        pf0.participant_roles.map ParticipantRole.role ++ ["reporter"] ++ ["commander"]) :=
  ⟨⟨⟨by decide, by decide⟩, by decide⟩,
    C2_get_or_create_roles_amended dbFound 1 2 none none ["reporter"] ["commander"]
      pf0 ⟨by decide, by decide⟩ (by decide)⟩

/-- C7: when `get_or_create` finds no participant for the pair and the
incident and individual exist, the created participant's team, department
and location each equal "Unknown" when the contact-enrichment collaborator
is absent or its lookup result lacks that key (an empty result is the
"returns nothing" case), and otherwise equal the value from the lookup
result. -/
theorem C7_contact_enrichment_defaults (db : Db) (inc ind : Nat)
    (sid : Option Nat) (roles : List String) (proj : Nat) (email : String)
    (hnone : filterPair db inc ind = [])
    (hinc : incident_project db inc = some proj)
    (hind : individual_email db ind = some email) :
    ∃ db' p, get_or_create db inc ind sid roles = some (db', p) ∧
      (db.contactPlugin proj = none →
          p.team = "Unknown" ∧ p.department = "Unknown" ∧ p.location = "Unknown") ∧
      (∀ f, db.contactPlugin proj = some f →
          ((lookupS (f email) "team" = none → p.team = "Unknown") ∧
            (∀ v, lookupS (f email) "team" = some v → p.team = v)) ∧
          ((lookupS (f email) "department" = none → p.department = "Unknown") ∧
            (∀ v, lookupS (f email) "department" = some v → p.department = v)) ∧
          ((lookupS (f email) "location" = none → p.location = "Unknown") ∧
            (∀ v, lookupS (f email) "location" = some v → p.location = v))) := by
  unfold get_or_create
  rw [hnone]
  simp only [one_or_none]
  rw [hinc, hind]
  dsimp only
  refine ⟨_, _, rfl, ?_, ?_⟩
  · intro hpl
    rw [hpl]
    exact ⟨rfl, rfl, rfl⟩
  · intro f hpl
    rw [hpl]
    refine ⟨⟨?_, ?_⟩, ⟨?_, ?_⟩, ⟨?_, ?_⟩⟩
    · intro hv
      show dict_get (f email) "team" "Unknown" = "Unknown"
      unfold dict_get
      rw [hv]
      rfl
    · intro v hv
      show dict_get (f email) "team" "Unknown" = v
      unfold dict_get
      rw [hv]
      rfl
    · intro hv
      show dict_get (f email) "department" "Unknown" = "Unknown"
      unfold dict_get
      rw [hv]
      rfl
    · intro v hv
      show dict_get (f email) "department" "Unknown" = v
      unfold dict_get
      rw [hv]
      rfl
    · intro hv
      show dict_get (f email) "location" "Unknown" = "Unknown"
      unfold dict_get
      rw [hv]
      rfl
    · intro v hv
      show dict_get (f email) "location" "Unknown" = v
      unfold dict_get
      rw [hv]
      rfl

/-- C7 witness: a concrete run against a plugin returning a team and a
location but no department. -/
theorem C7_contact_enrichment_defaults_witness :
    (filterPair dbPlugin 1 2 = [] ∧
      incident_project dbPlugin 1 = some 10 ∧
      individual_email dbPlugin 2 = some "alice") ∧
    (∃ db' p, get_or_create dbPlugin 1 2 none ["reporter"] = some (db', p) ∧
      (dbPlugin.contactPlugin 10 = none →
          p.team = "Unknown" ∧ p.department = "Unknown" ∧ p.location = "Unknown") ∧
      (∀ f, dbPlugin.contactPlugin 10 = some f →
          ((lookupS (f "alice") "team" = none → p.team = "Unknown") ∧
            (∀ v, lookupS (f "alice") "team" = some v → p.team = v)) ∧
          ((lookupS (f "alice") "department" = none → p.department = "Unknown") ∧
            (∀ v, lookupS (f "alice") "department" = some v → p.department = v)) ∧
          ((lookupS (f "alice") "location" = none → p.location = "Unknown") ∧
            (∀ v, lookupS (f "alice") "location" = some v → p.location = v)))) :=
  ⟨⟨by decide, by rfl, by rfl⟩,
    C7_contact_enrichment_defaults dbPlugin 1 2 none ["reporter"] 10 "alice"
      (by decide) (by rfl) (by rfl)⟩

/-- C8: `delete` removes the row with the given identifier and fails when
none exists; `get` is a total lookup whose result for a missing identifier
is the absent value, not an exception. -/
theorem C8_delete_notfound_get_absent (db : Db) (pid : Nat) :
    ((∀ p ∈ db.participants, p.id ≠ pid) →
        delete db pid = none ∧ get db pid = none) ∧
    (∀ p, get db pid = some p →
        ∃ db', delete db pid = some db' ∧
          db'.participants = db.participants.eraseP (fun q => q.id == pid) ∧
          (WfDb db → get db' pid = none)) := by
  constructor
  · intro habs
    have hfind : db.participants.find? (fun p => p.id == pid) = none := by
      apply List.find?_eq_none.mpr
      intro q hq
      simp only [beq_iff_eq]
      exact habs q hq
    constructor
    · unfold delete
      rw [hfind]
    · exact hfind
  · intro p hp
    have hfind : db.participants.find? (fun q => q.id == pid) = some p := hp
    refine ⟨{ db with
        participants := db.participants.eraseP (fun q => q.id == pid) }, ?_, rfl, ?_⟩
    · unfold delete
      rw [hfind]
    · intro hwf
      exact find?_eraseP_none db.participants pid hwf.1

/-- C8 witness: deleting the only participant (id 3) succeeds and empties
the table; afterwards `get` reports it absent. -/
theorem C8_delete_notfound_get_absent_witness :
    (get dbDel 3 = some { id := 3 }) ∧
    (∃ db', delete dbDel 3 = some db' ∧
      db'.participants = dbDel.participants.eraseP (fun q => q.id == 3) ∧
      (WfDb dbDel → get db' 3 = none)) :=
  ⟨by decide, (C8_delete_notfound_get_absent dbDel 3).2 { id := 3 } (by decide)⟩

section HeapLemmas

variable (tmpl : String → Ctx → String) (ctx : Ctx)

/-- One loop iteration touches only block cell `a` (plus button cells):
heaps agree below the bounds, all other block cells are untouched, and the
block store length is unchanged. -/
def BlkStep (h h' : Heap) (a nB nK : Nat) : Prop :=
  AgreeBelow h h' nB nK ∧ (∀ i, i ≠ a → h'.blks[i]? = h.blks[i]?) ∧
  h'.blks.length = h.blks.length

lemma agreeBelow_refl (h : Heap) (nB nK : Nat) : AgreeBelow h h nB nK :=
  ⟨fun _ _ => rfl, fun _ _ => rfl⟩

lemma agreeBelow_trans {h1 h2 h3 : Heap} {nB nK : Nat}
    (a : AgreeBelow h1 h2 nB nK) (b : AgreeBelow h2 h3 nB nK) :
    AgreeBelow h1 h3 nB nK :=
  ⟨fun i hi => (b.1 i hi).trans (a.1 i hi), fun j hj => (b.2 j hj).trans (a.2 j hj)⟩

lemma blkStep_refl (h : Heap) (a nB nK : Nat) : BlkStep h h a nB nK :=
  ⟨agreeBelow_refl h nB nK, fun _ _ => rfl, rfl⟩

lemma blkStep_trans {h1 h2 h3 : Heap} {a nB nK : Nat}
    (s : BlkStep h1 h2 a nB nK) (t : BlkStep h2 h3 a nB nK) :
    BlkStep h1 h3 a nB nK :=
  ⟨agreeBelow_trans s.1 t.1,
   fun i hi => (t.2.1 i hi).trans (s.2.1 i hi),
   t.2.2.trans s.2.2⟩

lemma writeBlk_blkStep (h : Heap) (a : Nat) (v : BlockCell) (nB nK : Nat)
    (ha : nK ≤ a) : BlkStep h (h.writeBlk a v) a nB nK := by
  refine ⟨⟨?_, fun j _ => rfl⟩, ?_, ?_⟩
  · intro i hi
    exact List.getElem?_set_ne (Nat.ne_of_gt (Nat.lt_of_lt_of_le hi ha))
  · intro i hi
    exact List.getElem?_set_ne (Ne.symm hi)
  · exact List.length_set h.blks a v

lemma readBlk_writeBlk_self (h : Heap) (a : Nat) (v : BlockCell)
    (halen : a < h.blks.length) : (h.writeBlk a v).readBlk a = v := by
  unfold Heap.readBlk Heap.writeBlk
  dsimp only
  rw [List.getElem?_set, if_pos rfl, if_pos halen]
  rfl

lemma writeBtn_agree (h : Heap) (b : Nat) (v : Button) (nB nK : Nat)
    (hb : nB ≤ b) : AgreeBelow h (h.writeBtn b v) nB nK := by
  refine ⟨fun i _ => rfl, ?_⟩
  intro j hj
  exact List.getElem?_set_ne (Nat.ne_of_gt (Nat.lt_of_lt_of_le hj hb))

lemma renderButtonsH_spec (nB nK : Nat) : ∀ (bs : List Nat) (h : Heap),
    (∀ b ∈ bs, nB ≤ b) →
    AgreeBelow h (renderButtonsH tmpl ctx h bs) nB nK ∧
    (renderButtonsH tmpl ctx h bs).blks = h.blks := by
  intro bs
  induction bs with
  | nil => exact fun h _ => ⟨agreeBelow_refl h nB nK, rfl⟩
  | cons b bs ih =>
    intro h hb
    have step := writeBtn_agree h b (renderButton tmpl ctx (h.readBtn b)) nB nK
      (hb b (List.mem_cons_self b bs))
    have rest := ih (h.writeBtn b (renderButton tmpl ctx (h.readBtn b)))
      (fun x hx => hb x (List.mem_cons_of_mem b hx))
    exact ⟨agreeBelow_trans step rest.1, rest.2⟩

lemma renderTailH_spec (h : Heap) (a nB nK : Nat) (ha : nK ≤ a) :
    BlkStep h (renderTailH tmpl ctx h a).1 a nB nK := by
  unfold renderTailH
  cases truthy (h.readBlk a).datetime with
  | none =>
    dsimp only
    cases truthy (h.readBlk a).context with
    | none => exact blkStep_refl h a nB nK
    | some s => exact writeBlk_blkStep h a _ nB nK ha
  | some s =>
    dsimp only
    set h1 := h.writeBlk a { h.readBlk a with datetime := some (tmpl s ctx) } with hh1
    have step1 := writeBlk_blkStep h a
      { h.readBlk a with datetime := some (tmpl s ctx) } nB nK ha
    cases truthy (h1.readBlk a).context with
    | none => exact step1
    | some t => exact blkStep_trans step1 (writeBlk_blkStep h1 a _ nB nK ha)

lemma btnsBound_of_eq {c c' : BlockCell} {n : Nat}
    (h : c'.buttons = c.buttons) (hb : BtnsBound c n) : BtnsBound c' n := by
  intro bs hbs b hbm
  rw [h] at hbs
  exact hb bs hbs b hbm

lemma writeSame_spec (h : Heap) (a nB nK : Nat) (v : BlockCell)
    (ha : nK ≤ a) (halen : a < h.blks.length)
    (hv : v.buttons = (h.readBlk a).buttons) :
    BlkStep h (h.writeBlk a v) a nB nK ∧
    ((h.writeBlk a v).readBlk a).buttons = (h.readBlk a).buttons ∧
    a < (h.writeBlk a v).blks.length :=
  ⟨writeBlk_blkStep h a v nB nK ha,
   by rw [readBlk_writeBlk_self h a v halen]; exact hv,
   by rw [(writeBlk_blkStep h a v nB nK ha).2.2]; exact halen⟩

lemma headStageH_spec (h : Heap) (a nB nK : Nat)
    (ha : nK ≤ a) (halen : a < h.blks.length) :
    BlkStep h (headStageH tmpl ctx h a) a nB nK ∧
    ((headStageH tmpl ctx h a).readBlk a).buttons = (h.readBlk a).buttons ∧
    a < (headStageH tmpl ctx h a).blks.length := by
  unfold headStageH
  cases truthy (h.readBlk a).header with
  | none => exact ⟨blkStep_refl h a nB nK, rfl, halen⟩
  | some s => exact writeSame_spec h a nB nK _ ha halen rfl

lemma titleStageH_spec (h : Heap) (a nB nK : Nat)
    (ha : nK ≤ a) (halen : a < h.blks.length) :
    BlkStep h (titleStageH tmpl ctx h a) a nB nK ∧
    ((titleStageH tmpl ctx h a).readBlk a).buttons = (h.readBlk a).buttons ∧
    a < (titleStageH tmpl ctx h a).blks.length := by
  unfold titleStageH
  cases truthy (h.readBlk a).title with
  | none => exact ⟨blkStep_refl h a nB nK, rfl, halen⟩
  | some s => exact writeSame_spec h a nB nK _ ha halen rfl

lemma textStageH_spec (h : Heap) (a nB nK : Nat)
    (ha : nK ≤ a) (halen : a < h.blks.length) :
    BlkStep h (textStageH tmpl ctx h a) a nB nK ∧
    ((textStageH tmpl ctx h a).readBlk a).buttons = (h.readBlk a).buttons ∧
    a < (textStageH tmpl ctx h a).blks.length := by
  unfold textStageH
  cases truthy (h.readBlk a).text with
  | none => exact ⟨blkStep_refl h a nB nK, rfl, halen⟩
  | some s => exact writeSame_spec h a nB nK _ ha halen rfl

lemma buttonsStageH_spec (h : Heap) (a nB nK : Nat)
    (hbb : BtnsBound (h.readBlk a) nB) :
    BlkStep h (buttonsStageH tmpl ctx h a) a nB nK ∧
    (buttonsStageH tmpl ctx h a).blks = h.blks := by
  unfold buttonsStageH
  cases hb : truthyList (h.readBlk a).buttons with
  | none => exact ⟨blkStep_refl h a nB nK, rfl⟩
  | some bs =>
    have spec := renderButtonsH_spec tmpl ctx nB nK bs h
      (hbb bs (truthyList_eq_some _ _ hb))
    exact ⟨⟨spec.1, fun i _ => by rw [spec.2], by rw [spec.2]⟩, spec.2⟩

lemma statusStageH_spec (h : Heap) (a nB nK : Nat) (ha : nK ≤ a) :
    BlkStep h (statusStageH tmpl ctx h a).1 a nB nK := by
  unfold statusStageH
  cases truthyList (h.readBlk a).status_mapping with
  | none => exact renderTailH_spec tmpl ctx h a nB nK ha
  | some m =>
    dsimp only
    cases lookupS ctx "status" with
    | none => exact blkStep_refl h a nB nK
    | some st =>
      dsimp only
      cases lookupS m st with
      | none => exact blkStep_refl h a nB nK
      | some v =>
        exact blkStep_trans (writeBlk_blkStep h a _ nB nK ha)
          (renderTailH_spec tmpl ctx _ a nB nK ha)

set_option maxHeartbeats 1000000 in
lemma renderBlockRestH_spec (h : Heap) (a nB nK : Nat)
    (ha : nK ≤ a) (halen : a < h.blks.length)
    (hbb : BtnsBound (h.readBlk a) nB) :
    BlkStep h (renderBlockRestH tmpl ctx h a).1 a nB nK := by
  unfold renderBlockRestH
  obtain ⟨s1, hb1, hl1⟩ := textStageH_spec tmpl ctx h a nB nK ha halen
  have hbb1 : BtnsBound ((textStageH tmpl ctx h a).readBlk a) nB :=
    btnsBound_of_eq hb1 hbb
  obtain ⟨s2, he2⟩ :=
    buttonsStageH_spec tmpl ctx (textStageH tmpl ctx h a) a nB nK hbb1
  have hl2 : a < (buttonsStageH tmpl ctx (textStageH tmpl ctx h a) a).blks.length := by
    rw [he2]
    exact hl1
  have s3 := statusStageH_spec tmpl ctx
    (buttonsStageH tmpl ctx (textStageH tmpl ctx h a) a) a nB nK ha
  exact blkStep_trans s1 (blkStep_trans s2 s3)

set_option maxHeartbeats 1000000 in
lemma renderBlockH_spec (h : Heap) (a nB nK : Nat)
    (ha : nK ≤ a) (halen : a < h.blks.length)
    (hbb : BtnsBound (h.readBlk a) nB) :
    BlkStep h (renderBlockH tmpl ctx h a).1 a nB nK := by
  obtain ⟨s1, hb1, hl1⟩ := headStageH_spec tmpl ctx h a nB nK ha halen
  obtain ⟨s2, hb2, hl2⟩ :=
    titleStageH_spec tmpl ctx (headStageH tmpl ctx h a) a nB nK ha hl1
  have s12 := blkStep_trans s1 s2
  have hbb2 : BtnsBound
      ((titleStageH tmpl ctx (headStageH tmpl ctx h a) a).readBlk a) nB :=
    btnsBound_of_eq (hb2.trans hb1) hbb
  unfold renderBlockH
  dsimp only
  split
  · split
    · exact blkStep_trans s12 (writeBlk_blkStep _ a _ nB nK ha)
    · split
      · exact blkStep_trans s12 (writeBlk_blkStep _ a _ nB nK ha)
      · rename_i s hlink hN hE
        obtain ⟨s3, hb3, hl3⟩ := writeSame_spec
          (titleStageH tmpl ctx (headStageH tmpl ctx h a) a) a nB nK
          { (titleStageH tmpl ctx (headStageH tmpl ctx h a) a).readBlk a with
              title_link := some (tmpl s ctx) } ha hl2 rfl
        exact blkStep_trans (blkStep_trans s12 s3)
          (renderBlockRestH_spec tmpl ctx _ a nB nK ha hl3
            (btnsBound_of_eq hb3 hbb2))
  · exact blkStep_trans s12
      (renderBlockRestH_spec tmpl ctx _ a nB nK ha hl2 hbb2)

set_option maxHeartbeats 2000000 in
lemma renderLoopH_agree (nB nK : Nat) : ∀ (as : List Nat) (h : Heap),
    (∀ x ∈ as, nK ≤ x ∧ x < h.blks.length ∧ BtnsBound (h.readBlk x) nB) →
    List.Pairwise (fun x y => x ≠ y) as →
    AgreeBelow h (renderLoopH tmpl ctx h as).1 nB nK := by
  intro as
  induction as with
  | nil => exact fun h _ _ => agreeBelow_refl h nB nK
  | cons a rest ih =>
    intro h hpre hpair
    obtain ⟨ha, halen, hbb⟩ := hpre a (List.mem_cons_self a rest)
    have hstep := renderBlockH_spec tmpl ctx h a nB nK ha halen hbb
    rcases List.pairwise_cons.mp hpair with ⟨hane, hpair'⟩
    unfold renderLoopH
    split
    · rename_i h1 e hrb
      rw [hrb] at hstep
      dsimp only at hstep
      exact hstep.1
    · rename_i h1 keep hrb
      rw [hrb] at hstep
      dsimp only at hstep
      have hpre' : ∀ x ∈ rest,
          nK ≤ x ∧ x < h1.blks.length ∧ BtnsBound (h1.readBlk x) nB := by
        intro x hx
        obtain ⟨hx1, hx2, hx3⟩ := hpre x (List.mem_cons_of_mem a hx)
        have hne : x ≠ a := fun hxa => (hane x hx) hxa.symm
        refine ⟨hx1, ?_, ?_⟩
        · rw [hstep.2.2]
          exact hx2
        · show BtnsBound ((h1.blks[x]?).getD default) nB
          rw [hstep.2.1 x hne]
          exact hx3
      have hloop := ih h1 hpre' hpair'
      split
      · rename_i h2 e hlp
        rw [hlp] at hloop
        dsimp only at hloop
        exact agreeBelow_trans hstep.1 hloop
      · rename_i h2 out hlp
        rw [hlp] at hloop
        dsimp only at hloop
        exact agreeBelow_trans hstep.1 hloop

lemma copyButtonList_spec : ∀ (bs : List Nat) (h : Heap),
    (copyButtonList h bs).1.blks = h.blks ∧
    (∃ U, (copyButtonList h bs).1.btns = h.btns ++ U) ∧
    (∀ b' ∈ (copyButtonList h bs).2, h.btns.length ≤ b') := by
  intro bs
  induction bs with
  | nil =>
    intro h
    exact ⟨rfl, ⟨[], (List.append_nil _).symm⟩, by intro b hb; cases hb⟩
  | cons b bs ih =>
    intro h
    obtain ⟨hblks, ⟨U, hU⟩, hbd⟩ := ih (h.allocBtn (h.readBtn b)).1
    have hlen1 : (h.allocBtn (h.readBtn b)).1.btns.length = h.btns.length + 1 := by
      show (h.btns ++ [h.readBtn b]).length = h.btns.length + 1
      rw [List.length_append]
      rfl
    refine ⟨hblks, ?_, ?_⟩
    · refine ⟨[h.readBtn b] ++ U, ?_⟩
      show (copyButtonList (h.allocBtn (h.readBtn b)).1 bs).1.btns = _
      rw [hU]
      show h.btns ++ [h.readBtn b] ++ U = h.btns ++ ([h.readBtn b] ++ U)
      rw [List.append_assoc]
    · intro b' hb'
      rcases List.mem_cons.mp hb' with h1 | h1
      · rw [h1]
        show h.btns.length ≤ h.btns.length
        exact Nat.le_refl _
      · have h2 := hbd b' h1
        rw [hlen1] at h2
        omega

lemma copyBlock_spec (h : Heap) (a : Nat) :
    ∃ cell U,
      (copyBlock h a).1.blks = h.blks ++ [cell] ∧
      (copyBlock h a).1.btns = h.btns ++ U ∧
      (copyBlock h a).2 = h.blks.length ∧
      BtnsBound cell h.btns.length := by
  cases hb : (h.readBlk a).buttons with
  | some bs =>
    have he : copyBlock h a =
        (copyButtonList h bs).1.allocBlk
          { h.readBlk a with buttons := some (copyButtonList h bs).2 } := by
      simp only [copyBlock, hb]
    rw [he]
    obtain ⟨hblks, ⟨U, hU⟩, hbd⟩ := copyButtonList_spec bs h
    refine ⟨{ h.readBlk a with buttons := some (copyButtonList h bs).2 }, U,
      ?_, ?_, ?_, ?_⟩
    · show (copyButtonList h bs).1.blks ++ _ = h.blks ++ _
      rw [hblks]
    · exact hU
    · show (copyButtonList h bs).1.blks.length = h.blks.length
      rw [hblks]
    · intro bs' hbs' b hbm
      have h2 : some (copyButtonList h bs).2 = some bs' := hbs'
      injection h2 with h2
      rw [← h2] at hbm
      exact hbd b hbm
  | none =>
    have he : copyBlock h a = h.allocBlk (h.readBlk a) := by
      simp only [copyBlock, hb]
    rw [he]
    refine ⟨h.readBlk a, [], rfl, (List.append_nil _).symm, rfl, ?_⟩
    intro bs hbs b hbm
    rw [hb] at hbs
    cases hbs

lemma deepcopy_spec : ∀ (as : List Nat) (h : Heap),
    (∃ T, (deepcopy h as).1.blks = h.blks ++ T) ∧
    (∃ U, (deepcopy h as).1.btns = h.btns ++ U) ∧
    List.Pairwise (fun x y => x ≠ y) (deepcopy h as).2 ∧
    (∀ x ∈ (deepcopy h as).2,
      h.blks.length ≤ x ∧ x < (deepcopy h as).1.blks.length ∧
      BtnsBound ((deepcopy h as).1.readBlk x) h.btns.length) := by
  intro as
  induction as with
  | nil =>
    intro h
    exact ⟨⟨[], (List.append_nil _).symm⟩, ⟨[], (List.append_nil _).symm⟩,
      List.Pairwise.nil, by intro x hx; cases hx⟩
  | cons a rest ih =>
    intro h
    obtain ⟨cell, U0, hcb, hcbt, hca, hcbb⟩ := copyBlock_spec h a
    obtain ⟨⟨T1, hT1⟩, ⟨U1, hU1⟩, hpw, hmem⟩ := ih (copyBlock h a).1
    have hlen1 : (copyBlock h a).1.blks.length = h.blks.length + 1 := by
      rw [hcb, List.length_append]
      rfl
    have hble : h.btns.length ≤ (copyBlock h a).1.btns.length := by
      rw [hcbt, List.length_append]
      exact Nat.le_add_right _ _
    refine ⟨?_, ?_, ?_, ?_⟩
    · refine ⟨[cell] ++ T1, ?_⟩
      show (deepcopy (copyBlock h a).1 rest).1.blks = _
      rw [hT1, hcb, List.append_assoc]
    · refine ⟨U0 ++ U1, ?_⟩
      show (deepcopy (copyBlock h a).1 rest).1.btns = _
      rw [hU1, hcbt, List.append_assoc]
    · refine List.pairwise_cons.mpr ⟨?_, hpw⟩
      intro y hy
      have h2 := (hmem y hy).1
      rw [hlen1] at h2
      show (copyBlock h a).2 ≠ y
      rw [hca]
      omega
    · intro x hx
      rcases List.mem_cons.mp hx with h1 | h1
      · rw [h1, hca]
        refine ⟨Nat.le_refl _, ?_, ?_⟩
        · show h.blks.length < (deepcopy (copyBlock h a).1 rest).1.blks.length
          rw [hT1, List.length_append, hlen1]
          omega
        · show BtnsBound
            (((deepcopy (copyBlock h a).1 rest).1.blks[h.blks.length]?).getD default)
            h.btns.length
          rw [hT1]
          rw [List.getElem?_append_left (by rw [hlen1]; omega), hcb,
            List.getElem?_concat_length]
          exact hcbb
      · obtain ⟨hx1, hx2, hx3⟩ := hmem x h1
        rw [hlen1] at hx1
        refine ⟨by omega, hx2, ?_⟩
        intro bs hbs b hbm
        exact Nat.le_trans hble (hx3 bs hbs b hbm)

end HeapLemmas

/-- C6: `render_message_template` never mutates its caller's input: it
deep-copies the block cells (and their button cells) and renders only the
copies, so every block cell and every button cell of the original heap is
unchanged by the whole call - whether the render completes or raises. -/
theorem C6_renderer_does_not_mutate_input
    (tmpl : String → Ctx → String) (ctx : Ctx) (h : Heap) (addrs : List Nat) :
    (∀ i, i < h.blks.length →
        (render_message_template_H tmpl ctx h addrs).1.blks[i]? = h.blks[i]?) ∧
    (∀ j, j < h.btns.length →
        (render_message_template_H tmpl ctx h addrs).1.btns[j]? = h.btns[j]?) := by
  obtain ⟨⟨T, hT⟩, ⟨U, hU⟩, hpw, hmem⟩ := deepcopy_spec addrs h
  have hagree1 : AgreeBelow h (deepcopy h addrs).1 h.btns.length h.blks.length := by
    constructor
    · intro i hi
      rw [hT]
      exact List.getElem?_append_left hi
    · intro j hj
      rw [hU]
      exact List.getElem?_append_left hj
  have hagree2 := renderLoopH_agree tmpl ctx h.btns.length h.blks.length
    (deepcopy h addrs).2 (deepcopy h addrs).1 hmem hpw
  have hagree := agreeBelow_trans hagree1 hagree2
  exact ⟨fun i hi => hagree.1 i hi, fun j hj => hagree.2 j hj⟩

/-- C6 witness: a concrete one-block, one-button heap is unchanged by a
full heap render. -/
theorem C6_renderer_does_not_mutate_input_witness :
    ((0 : Nat) < heapC6.blks.length ∧ (0 : Nat) < heapC6.btns.length) ∧
    ((render_message_template_H (fun s _ => s) [] heapC6 [0]).1.blks[0]? =
        heapC6.blks[0]? ∧
      (render_message_template_H (fun s _ => s) [] heapC6 [0]).1.btns[0]? =
        heapC6.btns[0]?) :=
  ⟨⟨by decide, by decide⟩,
    ⟨(C6_renderer_does_not_mutate_input (fun s _ => s) [] heapC6 [0]).1 0 (by decide),
      (C6_renderer_does_not_mutate_input (fun s _ => s) [] heapC6 [0]).2 0 (by decide)⟩⟩


end Dispatch
